import Mathlib

/-!
# Shallow embedding of the UPS SNMP monitor

This file embeds the polling-and-decoding engine of the repository
(`snmp_manager.py`, `ups_package/ups_oids.py`, `data_logger.py`) and proves
the specification's testable properties against it.

Modelling conventions:

* Python `dict`s are insertion-ordered association lists; assignment
  `d[k] = v` overwrites in place when the key is present (keeping its
  position) and appends otherwise (`alSet`).
* Python `int` is `Int`; Python `float` is an exact rational `ℚ`.  Every
  float the decoder produces is a small one-decimal value, for which
  Python float arithmetic, comparison and printing agree with exact
  decimal arithmetic.
* `datetime` values are represented by their ISO-8601 strings, compared
  lexicographically — which coincides with chronological order for the
  uniform, zero-padded, offset-free strings `datetime.fromisoformat`
  accepts and `datetime.isoformat` produces.
* The SNMP transport (`pysnmp`) is an external collaborator: one `getCmd`
  round trip is an `SnmpOutcome` input (an exception, or a response with
  error indication / error status / a list of pretty-printed values).
-/

namespace UpsSnmp

/-- Python `dict` assignment `d[k] = v`: overwrite the entry with key `k`
in place when the key is present (keeping its position), append otherwise.
(Keys are unique in a Python dict, so replacing the first occurrence is
exact.) -/
def alSet {α : Type} : List (String × α) → String → α → List (String × α)
  | [], k, v => [(k, v)]
  | (k0, v0) :: t, k, v =>
      if k0 = k then (k, v) :: t else (k0, v0) :: alSet t k v

/-- Python `d[k]` / `d.get(k)`: value of the first entry with key `k`. -/
def alGet {α : Type} : List (String × α) → String → Option α
  | [], _ => none
  | (k', v) :: t, k => if k' = k then some v else alGet t k

/-- Keys of a dict, in insertion order. -/
def alKeys {α : Type} (l : List (String × α)) : List String :=
  l.map Prod.fst

/-- Python `d.update(other)`: assign every entry of `other` in order. -/
def dictUpdate {α : Type} (base upd : List (String × α)) :
    List (String × α) :=
  upd.foldl (fun acc p => alSet acc p.1 p.2) base

/-- A decoded Python value as produced by `UPSSNMPManager._parse_value` /
`_process_ups_data`: an `int`, a `float` (modelled exactly as `ℚ`), or a
`str`. -/
inductive PVal where
  | pInt : Int → PVal
  | pFloat : ℚ → PVal
  | pStr : String → PVal
deriving DecidableEq, Repr

/-- Python `str.isdigit()` (restricted to the ASCII digits that occur in
SNMP pretty-printed values): non-empty and all characters are digits. -/
def py_isdigit (s : String) : Bool :=
  !s.isEmpty && s.toList.all Char.isDigit

/-- Value of a non-empty string of decimal digits (Python `int(s)` for a
string with `s.isdigit()`). -/
def digitsVal (l : List Char) : Nat :=
  l.foldl (fun a c => a * 10 + (c.toNat - 48)) 0

/-- `value.replace('.', '').replace('-', '')` from `_parse_value`. -/
def stripDotMinus (s : String) : String :=
  String.mk (s.toList.filter (fun c => !(c == '.') && !(c == '-')))

/-- Split a character list on `'.'` (the shape Python `float` parses
after the guard in `_parse_value` has removed other possibilities). -/
def splitOnDot : List Char → List (List Char)
  | [] => [[]]
  | c :: t =>
      if c == '.' then [] :: splitOnDot t
      else
        match splitOnDot t with
        | [] => [[c]]
        | h :: r => (c :: h) :: r

/-- Python `float(s)` on the decimal forms that can pass `_parse_value`'s
guard: optional leading minus, digits with at most one dot, at least one
digit.  `none` models `float` raising `ValueError` (e.g. on `"1-2"` or
`"1.2.3"`), which `_parse_value` catches, falling back to the raw string. -/
def pyFloat? (s : String) : Option ℚ :=
  let cs := s.toList
  let neg : Bool := cs.head? == some '-'
  let t := if neg then cs.tail else cs
  let sgn : ℚ := if neg then -1 else 1
  match splitOnDot t with
  | [a] =>
      if !a.isEmpty && a.all Char.isDigit then
        some (sgn * (digitsVal a : ℚ))
      else none
  | [a, b] =>
      if (a.all Char.isDigit && b.all Char.isDigit
          && !(a.isEmpty && b.isEmpty)) then
        some (sgn * ((digitsVal a : ℚ)
          + (digitsVal b : ℚ) / (10 : ℚ) ^ b.length))
      else none
  | _ => none

/-- `pat` is a prefix of `l` (on character lists). -/
def charsPrefix : List Char → List Char → Bool
  | [], _ => true
  | _ :: _, [] => false
  | a :: as, b :: bs => a == b && charsPrefix as bs

/-- `pat` occurs somewhere inside `l` (on character lists). -/
def charsInfix (pat : List Char) : List Char → Bool
  | [] => charsPrefix pat []
  | b :: bs => charsPrefix pat (b :: bs) || charsInfix pat bs

/-- Substring test, `pat in s` for Python strings. -/
def strContains (s pat : String) : Bool :=
  charsInfix pat.toList s.toList

/-- Python `str.lower()` (character-wise ASCII lowering). -/
def pyLower (s : String) : String :=
  String.mk (s.toList.map Char.toLower)

/-- The pysnmp pretty-print of an absent object. -/
def NO_SUCH_OBJECT : String := "No Such Object currently exists at this OID"

/-- The pysnmp pretty-print of an absent instance. -/
def NO_SUCH_INSTANCE : String :=
  "No Such Instance currently exists at this OID"

/-- `UPSSNMPManager._parse_value`: type-directed parsing of a raw SNMP
pretty-printed value by field-name convention.  `none` models the `None`
returned for the two "no such object/instance" sentinels. -/
def parse_value (name value : String) : Option PVal :=
  if value = NO_SUCH_OBJECT ∨ value = NO_SUCH_INSTANCE then none
  else some
    (let nl := pyLower name
     if strContains nl "status" then
       if py_isdigit value then .pInt (digitsVal value.toList) else .pStr value
     else if strContains nl "voltage" || strContains nl "current"
         || strContains nl "power" || strContains nl "frequency"
         || strContains nl "temperature" then
       if py_isdigit (stripDotMinus value) then
         match pyFloat? value with
         | some q => .pFloat q
         | none => .pStr value
       else .pStr value
     else if strContains nl "percent" || strContains nl "charge" then
       if py_isdigit value then .pInt (digitsVal value.toList) else .pStr value
     else if strContains nl "time" || strContains nl "minutes"
         || strContains nl "seconds" then
       if py_isdigit value then .pInt (digitsVal value.toList) else .pStr value
     else .pStr value)

/-- `ups_oids.BATTERY_STATUS`. -/
def BATTERY_STATUS : List (Int × String) :=
  [(1, "unknown"), (2, "batteryNormal"), (3, "batteryLow"),
   (4, "batteryDepleted")]

/-- `ups_oids.OUTPUT_SOURCE`. -/
def OUTPUT_SOURCE : List (Int × String) :=
  [(1, "other"), (2, "none"), (3, "normal"), (4, "bypass"), (5, "battery"),
   (6, "booster"), (7, "reducer")]

/-- `BATTERY_STATUS.get(value, f'unknown ({value})')`. -/
def batteryStatusText (n : Int) : String :=
  (BATTERY_STATUS.lookup n).getD ("unknown (" ++ toString n ++ ")")

/-- `OUTPUT_SOURCE.get(value, f'unknown ({value})')`. -/
def outputSourceText (n : Int) : String :=
  (OUTPUT_SOURCE.lookup n).getD ("unknown (" ++ toString n ++ ")")

/-- `ups_oids.UPS_MIB_BASE`. -/
def UPS_MIB_BASE : String := "1.3.6.1.2.1.33"

/-- `ups_oids.ESSENTIAL_OIDS`: the essential OID group polled every cycle,
in Python dict order (`UPS_BATTERY` first, then the output/input/alarm
additions). -/
def ESSENTIAL_OIDS : List (String × String) :=
  [("status", UPS_MIB_BASE ++ ".1.2.1.0"),
   ("time_on_battery", UPS_MIB_BASE ++ ".1.2.2.0"),
   ("minutes_remaining", UPS_MIB_BASE ++ ".1.2.3.0"),
   ("charge_remaining", UPS_MIB_BASE ++ ".1.2.4.0"),
   ("voltage", UPS_MIB_BASE ++ ".1.2.5.0"),
   ("current", UPS_MIB_BASE ++ ".1.2.6.0"),
   ("temperature", UPS_MIB_BASE ++ ".1.2.7.0"),
   ("output_source", UPS_MIB_BASE ++ ".1.4.1.0"),
   ("output_voltage", UPS_MIB_BASE ++ ".1.4.4.1.2" ++ ".1"),
   ("output_power", UPS_MIB_BASE ++ ".1.4.4.1.4" ++ ".1"),
   ("output_load", UPS_MIB_BASE ++ ".1.4.4.1.5" ++ ".1"),
   ("input_voltage", UPS_MIB_BASE ++ ".1.3.3.1.3" ++ ".1"),
   ("input_frequency", UPS_MIB_BASE ++ ".1.3.3.1.2" ++ ".1"),
   ("present_alarms", UPS_MIB_BASE ++ ".1.6.1.0")]

/-- One `getCmd` round trip of the external pysnmp transport: either the
call raised (timeout after all retries, unreachable host, ...), or it
returned an error-indication, error-status and pretty-printed var-binds. -/
inductive SnmpOutcome where
  | exc : String → SnmpOutcome
  | ok : Option String → Bool → List String → SnmpOutcome

/-- `UPSSNMPManager.get_multiple_oids`: bundle a named OID set into one
round trip; on exception, error indication or error status return the
(empty) results collected so far, otherwise map the var-binds back to the
request's names positionally and parse each value. -/
def get_multiple_oids (names : List String) (out : SnmpOutcome) :
    List (String × Option PVal) :=
  match out with
  | .exc _ => []
  | .ok (some _) _ _ => []
  | .ok none errSt vals =>
      if errSt then []
      else (names.zip vals).foldl
        (fun acc p => alSet acc p.1 (parse_value p.1 p.2)) []

/-- One step of the loop body of `UPSSNMPManager._process_ups_data`
(the `if/elif` chain on a single raw entry, working on the `processed`
dict built so far). -/
def processEntry (acc : List (String × PVal)) (k : String) (v : PVal) :
    List (String × PVal) :=
  if k = "status" then
    match v with
    | .pInt n =>
        alSet (alSet acc "battery_status" (.pStr (batteryStatusText n)))
          "battery_status_code" (.pInt n)
    | _ => alSet acc k v
  else if k = "output_source" then
    match v with
    | .pInt n =>
        alSet (alSet acc "output_source" (.pStr (outputSourceText n)))
          "output_source_code" (.pInt n)
    | _ => alSet acc k v
  else if k = "voltage" then
    match v with
    | .pInt n => alSet acc k (.pFloat ((n : ℚ) / 10))
    | .pFloat q => alSet acc k (.pFloat (q / 10))
    | _ => alSet acc k v
  else if k = "current" then
    match v with
    | .pInt n => alSet acc k (.pFloat ((n : ℚ) / 10))
    | .pFloat q => alSet acc k (.pFloat (q / 10))
    | _ => alSet acc k v
  else if k = "frequency" then
    match v with
    | .pInt n => alSet acc k (.pFloat ((n : ℚ) / 10))
    | .pFloat q => alSet acc k (.pFloat (q / 10))
    | _ => alSet acc k v
  else alSet acc k v

/-- One iteration of `_process_ups_data`'s loop: `None` values are skipped
(`continue`-by-omission), everything else goes through the `if/elif`
chain. -/
def processStep (acc : List (String × PVal)) (p : String × Option PVal) :
    List (String × PVal) :=
  match p.2 with
  | none => acc
  | some v => processEntry acc p.1 v

/-- `UPSSNMPManager._process_ups_data`: skip `None` values, convert the two
status codes to text (keeping the numeric code under a separate key), scale
the 0.1-unit battery voltage/current and frequency keys by 1/10, pass
everything else through. -/
def process_ups_data (raw : List (String × Option PVal)) :
    List (String × PVal) :=
  raw.foldl processStep []

/-- The initial `data` dict of `UPSSNMPManager.get_ups_status`. -/
def baseRecord (ts ip : String) : List (String × Option PVal) :=
  [("timestamp", some (.pStr ts)), ("ip", some (.pStr ip)),
   ("status", some (.pStr "online")), ("error", none)]

/-- `UPSSNMPManager.get_ups_status`: one poll cycle's status record, as a
function of the timestamp, the device address and the raw result of
`get_multiple_oids(ESSENTIAL_OIDS)` (an entry is `none` when the OID was
absent).  An empty raw result yields the offline record; otherwise the
processed data is `dict.update`d over the base record.  (The `except`
branch producing `status='error'` guards `_process_ups_data`, which is
total, so it is unreachable in this embedding.) -/
def get_ups_status (ts ip : String) (raw : List (String × Option PVal)) :
    List (String × Option PVal) :=
  if raw = [] then
    [("timestamp", some (.pStr ts)), ("ip", some (.pStr ip)),
     ("status", some (.pStr "offline")),
     ("error", some (.pStr "No SNMP response"))]
  else
    dictUpdate (baseRecord ts ip)
      ((process_ups_data raw).map (fun p => (p.1, some p.2)))

/-! ## Data logger (`data_logger.py`)

Files are modelled structurally: a CSV file is its header row plus its data
rows (each row a list of cells; the `csv` module's quoting round-trips
transparently and is elided), a JSON-lines file is its list of records.
`st_mtime` is a `Nat`; byte sizes are computed from the structural content
(one-character delimiters plus CRLF for CSV, `json.dump` text plus a
newline for JSON lines). -/

/-- Zero-pad a digit string on the left to width `k`
(for rendering the fraction part of a float). -/
def padZeros (s : String) (k : Nat) : String :=
  String.mk (List.replicate (k - s.length) '0') ++ s

/-- Python `str()` of a non-negative float, modelled on exact decimals:
print with the least number of decimal places (at least one, as Python
always prints `x.0` for integral floats). -/
def decReprNN (q : ℚ) : String :=
  match (List.range 31).find? (fun k => (q * (10 : ℚ) ^ k).den = 1) with
  | some k =>
      let m := (q * (10 : ℚ) ^ k).num.toNat
      if k = 0 then toString m ++ ".0"
      else toString (m / 10 ^ k) ++ "." ++ padZeros (toString (m % 10 ^ k)) k
  | none => toString q

/-- Python `str()` of a float (exact-decimal model). -/
def decRepr (q : ℚ) : String :=
  if q < 0 then "-" ++ decReprNN (-q) else decReprNN q

/-- How the `csv` module writes one record value: `None` becomes the empty
cell, numbers their `str()` rendering, strings themselves. -/
def csvCell : Option PVal → String
  | none => ""
  | some (.pInt n) => toString n
  | some (.pFloat q) => decRepr q
  | some (.pStr s) => s

/-- A record as logged: a Python dict of optional values (`none` is Python
`None`).  The records this system logs are flat, so `_flatten_dict` is the
identity on them. -/
abbrev Record := List (String × Option PVal)

/-- `json.dump` of a string (claim-relevant strings contain no characters
needing escapes beyond quote and backslash). -/
def jsonStr (s : String) : String :=
  "\"" ++ String.join (s.toList.map (fun c =>
    if c == '"' then "\\\"" else if c == '\\' then "\\\\"
    else String.mk [c])) ++ "\""

/-- `json.dump` of one value. -/
def jsonVal : Option PVal → String
  | none => "null"
  | some (.pInt n) => toString n
  | some (.pFloat q) => decRepr q
  | some (.pStr s) => jsonStr s

/-- `json.dump` of one record (default separators `", "` and `": "`). -/
def jsonDump (r : Record) : String :=
  "\x7b" ++ String.intercalate ", "
    (r.map (fun p => jsonStr p.1 ++ ": " ++ jsonVal p.2)) ++ "\x7d"

/-- The `DataLogger` configuration: `rotation` (periodic rotation on/off),
`max_size_mb`, `log_format`. -/
structure LoggerCfg where
  rotation : Bool
  maxSizeMB : Nat
  logFormat : String

/-- `DataLogger._get_log_filename`: the dated (or plain) base name for the
device; if that file exists and exceeds the byte ceiling, a fresh name
suffixed with the current `%Y%m%d_%H%M%S` timestamp instead.  `size` gives
each existing file's byte size (`none` = the file does not exist). -/
def get_log_filename (cfg : LoggerCfg) (device dateStr nowStr : String)
    (size : String → Option Nat) : String :=
  let filename :=
    if cfg.rotation then device ++ "_" ++ dateStr ++ "." ++ cfg.logFormat
    else device ++ "." ++ cfg.logFormat
  -- `filepath.exists() and st_size > ceiling`: a missing file has
  -- `size = none`, and `getD 0` can never exceed the ceiling.
  if (size filename).getD 0 > cfg.maxSizeMB * 1024 * 1024 then
    device ++ "_" ++ nowStr ++ "." ++ cfg.logFormat
  else filename

/-- `pat` is a suffix of `l` (on character lists). -/
def charsSuffix (pat l : List Char) : Bool :=
  charsPrefix pat.reverse l.reverse

/-- The glob pattern `f"{device_name}*.{log_format}"` used by
`get_latest_data` and `export_data`: the name starts with the device name
and the remainder ends with `"." ++ ext`. -/
def globMatch (device ext : String) (name : String) : Bool :=
  charsPrefix device.toList name.toList
    && charsSuffix ("." ++ ext).toList (name.toList.drop device.toList.length)

/-- One CSV log file: name, last-modified time, header row, data rows. -/
structure CsvFile where
  name : String
  mtime : Nat
  header : List String
  rows : List (List String)
deriving DecidableEq, Repr

/-- One JSON-lines log file: name, last-modified time, records. -/
structure JsonFile where
  name : String
  mtime : Nat
  recs : List Record
deriving DecidableEq, Repr

/-- Rendered length of one CSV line: cells, `n-1` comma separators, CRLF. -/
def csvLineSize (cells : List String) : Nat :=
  cells.foldl (fun a c => a + c.length) 0 + (cells.length - 1) + 2

/-- Byte size of a CSV file. -/
def csvFileSize (f : CsvFile) : Nat :=
  csvLineSize f.header + f.rows.foldl (fun a r => a + csvLineSize r) 0

/-- Byte size of a JSON-lines file (each record is `json.dump` plus a
newline). -/
def jsonFileSize (f : JsonFile) : Nat :=
  f.recs.foldl (fun a r => a + (jsonDump r).length + 1) 0

/-- Look a file up by name. -/
def findCsv (fs : List CsvFile) (n : String) : Option CsvFile :=
  fs.find? (fun f => f.name == n)

/-- Look a file up by name. -/
def findJson (fs : List JsonFile) (n : String) : Option JsonFile :=
  fs.find? (fun f => f.name == n)

/-- `DataLogger._log_csv`: select the file name, then either create the
file with a header row derived from the record's keys, or append the
record's values (in the record's own key order) to the existing file.
The appended-to file's `mtime` becomes the write time `mt`. -/
def log_csv (cfg : LoggerCfg) (device dateStr nowStr : String) (mt : Nat)
    (data : Record) (fs : List CsvFile) : List CsvFile :=
  match findCsv fs (get_log_filename cfg device dateStr nowStr
      (fun n => (findCsv fs n).map csvFileSize)) with
  | none =>
      fs ++ [⟨get_log_filename cfg device dateStr nowStr
        (fun n => (findCsv fs n).map csvFileSize), mt,
        data.map Prod.fst, [data.map (fun p => csvCell p.2)]⟩]
  | some _ =>
      fs.map (fun f =>
        if f.name = get_log_filename cfg device dateStr nowStr
            (fun n => (findCsv fs n).map csvFileSize) then
          ⟨f.name, mt, f.header,
            f.rows ++ [data.map (fun p => csvCell p.2)]⟩
        else f)

/-- `DataLogger._log_json`: append the record (unflattened) as one JSON
line. -/
def log_json (cfg : LoggerCfg) (device dateStr nowStr : String) (mt : Nat)
    (data : Record) (fs : List JsonFile) : List JsonFile :=
  match findJson fs (get_log_filename cfg device dateStr nowStr
      (fun n => (findJson fs n).map jsonFileSize)) with
  | none =>
      fs ++ [⟨get_log_filename cfg device dateStr nowStr
        (fun n => (findJson fs n).map jsonFileSize), mt, [data]⟩]
  | some _ =>
      fs.map (fun f =>
        if f.name = get_log_filename cfg device dateStr nowStr
            (fun n => (findJson fs n).map jsonFileSize) then
          ⟨f.name, mt, f.recs ++ [data]⟩
        else f)

/-- Python `lst[-n:]` as used by `get_latest_data` (for `n = 0` this is
`lst[0:]`, the whole list). -/
def pyTail {α : Type} (n : Nat) (l : List α) : List α :=
  if n = 0 then l else l.drop (l.length - n)

/-- One comparison step of taking the most recently modified file. -/
def pickStep {α : Type} (mt : α → Nat) (best : Option α) (f : α) :
    Option α :=
  match best with
  | none => some f
  | some b => if mt f > mt b then some f else some b

/-- `sorted(files, key=st_mtime, reverse=True)[0]`: the element with the
greatest `mt`-value (stable: ties keep the earlier, i.e. glob-order,
element). -/
def pickLatest {α : Type} (mt : α → Nat) (l : List α) : Option α :=
  l.foldl (pickStep mt) none

/-- `pickLatest` for CSV files. -/
def pickLatestCsv (l : List CsvFile) : Option CsvFile :=
  pickLatest CsvFile.mtime l

/-- `pickLatest` for JSON files. -/
def pickLatestJson (l : List JsonFile) : Option JsonFile :=
  pickLatest JsonFile.mtime l

/-- `csv.DictReader`'s view of one data row: zip the header with the row's
cells; a short row pads missing fields with `None` (extra cells beyond the
header land under the `restkey` and are elided here). -/
def readCsvRow : List String → List String → List (String × Option String)
  | [], _ => []
  | h :: hs, [] => (h, none) :: readCsvRow hs []
  | h :: hs, c :: cs => (h, some c) :: readCsvRow hs cs

/-- `DataLogger.get_latest_data` in CSV mode: read the most recently
modified matching file and return its last `n` rows as dicts. -/
def get_latest_data_csv (device : String) (n : Nat) (fs : List CsvFile) :
    List (List (String × Option String)) :=
  match pickLatestCsv (fs.filter (fun f => globMatch device "csv" f.name)) with
  | none => []
  | some f => (pyTail n f.rows).map (readCsvRow f.header)

/-- `DataLogger.get_latest_data` in JSON mode: read the most recently
modified matching file and return its last `n` records. -/
def get_latest_data_json (device : String) (n : Nat) (fs : List JsonFile) :
    List Record :=
  match pickLatestJson (fs.filter (fun f => globMatch device "json" f.name)) with
  | none => []
  | some f => pyTail n f.recs

/-- Shape of a timestamp string `datetime.fromisoformat` accepts (date
part strictly checked; time part loosely: a `T`/space separator followed by
digits, colons and dots).  On such uniform zero-padded strings, `datetime`
order coincides with lexicographic string order, which is how bound
comparisons are modelled below.  A record timestamp failing this check
models `fromisoformat` raising, which aborts the whole export. -/
def tsOk (s : String) : Bool :=
  match s.toList with
  | y1 :: y2 :: y3 :: y4 :: '-' :: m1 :: m2 :: '-' :: d1 :: d2 :: rest =>
      [y1, y2, y3, y4, m1, m2, d1, d2].all Char.isDigit &&
      (match rest with
       | [] => true
       | c :: tl =>
           (c == 'T' || c == ' ')
             && tl.all (fun x => x.isDigit || x == ':' || x == '.'))
  | _ => false

/-- The two `continue` guards of `export_data`: keep a record iff its
timestamp is not strictly before the start bound and not strictly after
the end bound (absent bounds never exclude). -/
def keepVal (s? e? : Option String) (ts : String) : Bool :=
  !(s?.elim false (fun a => decide (ts < a)))
    && !(e?.elim false (fun b => decide (b < ts)))

/-- Date filtering of one CSV-read record in `export_data`: no
`'timestamp'` key keeps the record unconditionally; a present key whose
value is `None` (short row) or unparseable raises inside the `try`,
aborting the export (`none`); otherwise the bound comparison decides. -/
def keepRow (s? e? : Option String) (tsv : Option (Option String)) :
    Option Bool :=
  match tsv with
  | none => some true
  | some none => none
  | some (some ts) => if tsOk ts then some (keepVal s? e? ts) else none

/-- Date filtering of one JSON record in `export_data`: as `keepRow`, but a
non-string timestamp value (including `null`) makes `fromisoformat` raise. -/
def keepRowJson (s? e? : Option String) (tsv : Option (Option PVal)) :
    Option Bool :=
  match tsv with
  | none => some true
  | some (some (.pStr ts)) => if tsOk ts then some (keepVal s? e? ts) else none
  | some _ => none

/-- The record-gathering loop of `export_data` over a list of already-read
records: append each kept record to `all_data`, abort on a timestamp
parse failure. -/
def collectRows {α : Type} (keep : List (String × α) → Option Bool)
    (rows : List (List (String × α))) :
    Option (List (List (String × α))) :=
  rows.foldl
    (fun acc r => acc.bind (fun l =>
      (keep r).map (fun b => if b then l ++ [r] else l)))
    (some [])

/-- `sorted(glob(pattern))` for CSV files: the matching files in
file-name order. -/
def csvMatchingSorted (device : String) (fs : List CsvFile) :
    List CsvFile :=
  List.insertionSort (fun a b : CsvFile => a.name ≤ b.name)
    (fs.filter (fun f => globMatch device "csv" f.name))

/-- `sorted(glob(pattern))` for JSON files. -/
def jsonMatchingSorted (device : String) (fs : List JsonFile) :
    List JsonFile :=
  List.insertionSort (fun a b : JsonFile => a.name ≤ b.name)
    (fs.filter (fun f => globMatch device "json" f.name))

/-- One CSV file's rows as `csv.DictReader` presents them. -/
def csvReadRecords (f : CsvFile) : List (List (String × Option String)) :=
  f.rows.map (readCsvRow f.header)

/-- The file-scanning loop of `export_data` in CSV mode:
`sorted(glob(pattern))` scans the matching files in name order; each file's
rows are read through `csv.DictReader`. -/
def collect_csv (device : String) (s? e? : Option String)
    (fs : List CsvFile) :
    Option (List (List (String × Option String))) :=
  (csvMatchingSorted device fs).foldl
    (fun acc f => acc.bind (fun l =>
      (collectRows (fun r => keepRow s? e? (alGet r "timestamp"))
        (csvReadRecords f)).map (fun m => l ++ m)))
    (some [])

/-- The file-scanning loop of `export_data` in JSON mode. -/
def collect_json (device : String) (s? e? : Option String)
    (fs : List JsonFile) : Option (List Record) :=
  (jsonMatchingSorted device fs).foldl
    (fun acc f => acc.bind (fun l =>
      (collectRows (fun r => keepRowJson s? e? (alGet r "timestamp"))
        f.recs).map (fun m => l ++ m)))
    (some [])

/-- `csv.DictWriter.writerow` on one exported record: a key outside the
field names raises `ValueError` (aborting the export); otherwise the cells
are the record's values in field-name order, absent or `None` values
written as the empty cell (`restval`). -/
def dictWriterRow (fieldnames : List String)
    (r : List (String × Option String)) : Option (List String) :=
  if r.all (fun p => fieldnames.contains p.1) then
    some (fieldnames.map (fun k =>
      match alGet r k with
      | some (some s) => s
      | _ => ""))
  else none

/-- `csv.DictWriter.writerow` on one typed (JSON-mode) record. -/
def dictWriterRowP (fieldnames : List String) (r : Record) :
    Option (List String) :=
  if r.all (fun p => fieldnames.contains p.1) then
    some (fieldnames.map (fun k =>
      match alGet r k with
      | some v => csvCell v
      | none => ""))
  else none

/-- The `writer.writerows(all_data)` loop: write each record's row,
aborting (exception, export returns `False`) when one raises. -/
def writeRows {β : Type} (rowFn : β → Option (List String)) :
    List β → Option (List (List String))
  | [] => some []
  | r :: t =>
      (rowFn r).bind (fun c => (writeRows rowFn t).map (fun cs => c :: cs))

/-- What `export_data` writes to the destination in CSV mode (the
destination path is always supplied by the operator entry point).  `none`
models `export_data` returning `False`. -/
inductive CsvOut where
  | toCsv : List String → List (List String) → CsvOut
  | toCsvEmpty : CsvOut
  | toJson : List (List (String × Option String)) → CsvOut
  | noWrite : CsvOut
deriving DecidableEq, Repr

/-- What `export_data` writes to the destination in JSON mode. -/
inductive JsonOut where
  | toCsv : List String → List (List String) → JsonOut
  | toCsvEmpty : JsonOut
  | toJson : List Record → JsonOut
  | noWrite : JsonOut
deriving DecidableEq, Repr

/-- `DataLogger.export_data` in CSV mode: gather the date-filtered records
from all matching files in name order, then write them to the destination
in the format implied by the destination's own suffix (a `.csv` suffix
writes a header from the first record's keys; an empty gather still
creates the destination file empty; any other suffix writes nothing but
still succeeds). -/
def export_data_csv (device : String) (s? e? : Option String)
    (suffix : String) (fs : List CsvFile) : Option CsvOut :=
  (collect_csv device s? e? fs).bind (fun all =>
    if suffix = ".csv" then
      match all with
      | [] => some .toCsvEmpty
      | r0 :: _ =>
          let fieldnames := r0.map Prod.fst
          (writeRows (dictWriterRow fieldnames) all).map
            (fun rows => .toCsv fieldnames rows)
    else if suffix = ".json" then some (.toJson all)
    else some .noWrite)

/-- `DataLogger.export_data` in JSON mode. -/
def export_data_json (device : String) (s? e? : Option String)
    (suffix : String) (fs : List JsonFile) : Option JsonOut :=
  (collect_json device s? e? fs).bind (fun all =>
    if suffix = ".csv" then
      match all with
      | [] => some .toCsvEmpty
      | r0 :: _ =>
          let fieldnames := r0.map Prod.fst
          (writeRows (dictWriterRowP fieldnames) all).map
            (fun rows => .toCsv fieldnames rows)
    else if suffix = ".json" then some (.toJson all)
    else some .noWrite)

/-- The four base keys every status record starts from. -/
def statusBaseKeys : List String := ["timestamp", "ip", "status", "error"]

/-- A status record carries at least one decoded telemetry field: some
entry beyond the four base keys of `get_ups_status`'s initial dict. -/
def decodedPresent (r : Record) : Bool :=
  r.any (fun p => !(statusBaseKeys.contains p.1))

/-- The keys `_process_ups_data` can introduce beyond the raw field names
(text label and numeric code of the two mapped enumerations). -/
def artifactKeys : List String :=
  ["battery_status", "battery_status_code", "output_source",
   "output_source_code"]

/-- The exact keys one entry of `_process_ups_data`'s loop writes: the raw
key itself, except that an integer `status` is rewritten to the
`battery_status`/`battery_status_code` pair and an integer `output_source`
to the `output_source`/`output_source_code` pair. -/
def emitKeys (k0 : String) (v : PVal) : List String :=
  if k0 = "status" then
    match v with
    | .pInt _ => ["battery_status", "battery_status_code"]
    | _ => [k0]
  else if k0 = "output_source" then
    match v with
    | .pInt _ => ["output_source", "output_source_code"]
    | _ => [k0]
  else [k0]

end UpsSnmp

namespace UpsSnmp

/-! ## Dictionary lemmas -/

theorem alSet_ne_nil {α : Type} (l : List (String × α)) (k : String)
    (v : α) : alSet l k v ≠ [] := by
  cases l with
  | nil => simp [alSet]
  | cons p t =>
      rcases p with ⟨k0, v0⟩
      by_cases h0 : k0 = k <;> simp [alSet, h0]

theorem alGet_alSet_ne {α : Type} (l : List (String × α)) (k k' : String)
    (v : α) (h : k' ≠ k) : alGet (alSet l k' v) k = alGet l k := by
  induction l with
  | nil => simp [alSet, alGet, if_neg h]
  | cons p t ih =>
      rcases p with ⟨k0, v0⟩
      by_cases h0 : k0 = k'
      · subst h0
        simp [alSet, alGet, if_neg h]
      · by_cases h1 : k0 = k
        · subst h1
          simp [alSet, alGet, h0]
        · simp [alSet, alGet, h0, h1, ih]

theorem mem_alKeys_alSet {α : Type} (l : List (String × α))
    (k k' : String) (v : α) :
    k' ∈ alKeys (alSet l k v) ↔ k' ∈ alKeys l ∨ k' = k := by
  induction l with
  | nil => simp [alSet, alKeys]
  | cons p t ih =>
      rcases p with ⟨k0, v0⟩
      by_cases h0 : k0 = k
      · subst h0
        simp [alSet, alKeys]
        tauto
      · simp [alSet, alKeys, h0] at ih ⊢
        tauto

theorem dictUpdate_cons {α : Type} (base : List (String × α))
    (p : String × α) (t : List (String × α)) :
    dictUpdate base (p :: t) = dictUpdate (alSet base p.1 p.2) t := rfl

theorem alGet_dictUpdate_not_mem {α : Type}
    (base upd : List (String × α)) (k : String)
    (h : k ∉ alKeys upd) : alGet (dictUpdate base upd) k = alGet base k := by
  induction upd generalizing base with
  | nil => rfl
  | cons p t ih =>
      simp only [alKeys, List.map_cons, List.mem_cons] at h
      push_neg at h
      rw [dictUpdate_cons]
      rw [ih (alSet base p.1 p.2) (by simpa [alKeys] using h.2)]
      exact alGet_alSet_ne base k p.1 p.2 (fun he => h.1 he.symm)

theorem mem_alKeys_dictUpdate {α : Type}
    (base upd : List (String × α)) (k : String) :
    k ∈ alKeys (dictUpdate base upd) ↔ k ∈ alKeys base ∨ k ∈ alKeys upd := by
  induction upd generalizing base with
  | nil => simp [dictUpdate, alKeys]
  | cons p t ih =>
      rw [dictUpdate_cons, ih (alSet base p.1 p.2), mem_alKeys_alSet]
      simp [alKeys]
      tauto

theorem mem_alKeys_iff {α : Type} (l : List (String × α)) (k : String) :
    k ∈ alKeys l ↔ ∃ p ∈ l, p.1 = k := by
  simp [alKeys, List.mem_map]

/-! ## `_process_ups_data` lemmas -/

theorem processEntry_ne_nil (acc : List (String × PVal)) (k0 : String)
    (v0 : PVal) : processEntry acc k0 v0 ≠ [] := by
  cases v0 with
  | pInt n =>
      simp only [processEntry]
      split_ifs <;> exact alSet_ne_nil _ _ _
  | pFloat q =>
      simp only [processEntry]
      split_ifs <;> exact alSet_ne_nil _ _ _
  | pStr s =>
      simp only [processEntry]
      split_ifs <;> exact alSet_ne_nil _ _ _

theorem processEntry_keys (acc : List (String × PVal)) (k0 : String)
    (v0 : PVal) (k : String)
    (hm : k ∈ alKeys (processEntry acc k0 v0)) :
    k ∈ alKeys acc ∨ k ∈ artifactKeys
      ∨ (k = k0 ∧ (k0 = "status" → ¬ ∃ n, v0 = PVal.pInt n)) := by
  unfold processEntry at hm
  split at hm
  · rename_i h1
    split at hm
    · rw [mem_alKeys_alSet, mem_alKeys_alSet] at hm
      rcases hm with (hm | rfl) | rfl
      · exact Or.inl hm
      · right; left; simp [artifactKeys]
      · right; left; simp [artifactKeys]
    · rename_i hne
      rw [mem_alKeys_alSet] at hm
      rcases hm with hm | rfl
      · exact Or.inl hm
      · refine Or.inr (Or.inr ⟨rfl, fun _ hex => ?_⟩)
        rcases hex with ⟨n, rfl⟩
        exact hne n rfl
  · rename_i h1
    split at hm
    · rename_i h2
      split at hm
      · rw [mem_alKeys_alSet, mem_alKeys_alSet] at hm
        rcases hm with (hm | rfl) | rfl
        · exact Or.inl hm
        · right; left; simp [artifactKeys]
        · right; left; simp [artifactKeys]
      · rw [mem_alKeys_alSet] at hm
        rcases hm with hm | rfl
        · exact Or.inl hm
        · exact Or.inr (Or.inr ⟨rfl, fun hs => absurd hs h1⟩)
    · rename_i h2
      have hset : ∀ w : PVal, k ∈ alKeys (alSet acc k0 w) →
          k ∈ alKeys acc ∨ k ∈ artifactKeys
            ∨ (k = k0 ∧ (k0 = "status" → ¬ ∃ n, v0 = PVal.pInt n)) := by
        intro w hw
        rw [mem_alKeys_alSet] at hw
        rcases hw with hw | rfl
        · exact Or.inl hw
        · exact Or.inr (Or.inr ⟨rfl, fun hs => absurd hs h1⟩)
      split at hm
      · split at hm <;> exact hset _ hm
      · split at hm
        · split at hm <;> exact hset _ hm
        · split at hm
          · split at hm <;> exact hset _ hm
          · exact hset _ hm

theorem processFold_keys (raw : List (String × Option PVal))
    (acc : List (String × PVal)) (k : String)
    (hm : k ∈ alKeys (raw.foldl processStep acc)) :
    k ∈ alKeys acc ∨ k ∈ artifactKeys
      ∨ ∃ v, (k, some v) ∈ raw
          ∧ (k = "status" → ¬ ∃ n, v = PVal.pInt n) := by
  induction raw generalizing acc with
  | nil => exact Or.inl hm
  | cons p t ih =>
      rcases p with ⟨k0, v?⟩
      cases v? with
      | none =>
          rcases ih acc hm with hm | hm | ⟨v, hv, hc⟩
          · exact Or.inl hm
          · exact Or.inr (Or.inl hm)
          · exact Or.inr (Or.inr ⟨v, List.mem_cons_of_mem _ hv, hc⟩)
      | some v0 =>
          rcases ih (processEntry acc k0 v0) hm with hm | hm | ⟨v, hv, hc⟩
          · rcases processEntry_keys acc k0 v0 k hm with hm | hm | ⟨rfl, hc⟩
            · exact Or.inl hm
            · exact Or.inr (Or.inl hm)
            · refine Or.inr (Or.inr ⟨v0, List.mem_cons_self .., ?_⟩)
              exact hc
          · exact Or.inr (Or.inl hm)
          · exact Or.inr (Or.inr ⟨v, List.mem_cons_of_mem _ hv, hc⟩)

theorem mem_alKeys_processEntry (acc : List (String × PVal)) (k0 : String)
    (v0 : PVal) (k : String) :
    k ∈ alKeys (processEntry acc k0 v0) ↔
      k ∈ alKeys acc ∨ k ∈ emitKeys k0 v0 := by
  cases v0 with
  | pInt n =>
      simp only [processEntry, emitKeys]
      split_ifs <;> simp [mem_alKeys_alSet] <;> tauto
  | pFloat q =>
      simp only [processEntry, emitKeys]
      split_ifs <;> simp [mem_alKeys_alSet]
  | pStr s =>
      simp only [processEntry, emitKeys]
      split_ifs <;> simp [mem_alKeys_alSet]

theorem processFold_keys_origin (raw : List (String × Option PVal))
    (acc : List (String × PVal)) (k : String)
    (hm : k ∈ alKeys (raw.foldl processStep acc)) :
    k ∈ alKeys acc ∨ ∃ k0 v, (k0, some v) ∈ raw ∧ k ∈ emitKeys k0 v := by
  induction raw generalizing acc with
  | nil => exact Or.inl hm
  | cons p t ih =>
      rcases p with ⟨k0, v?⟩
      cases v? with
      | none =>
          rcases ih acc hm with h | ⟨k1, v, hv, hk⟩
          · exact Or.inl h
          · exact Or.inr ⟨k1, v, List.mem_cons_of_mem _ hv, hk⟩
      | some v0 =>
          rcases ih (processEntry acc k0 v0) hm with h | ⟨k1, v, hv, hk⟩
          · rcases (mem_alKeys_processEntry acc k0 v0 k).1 h with h' | h'
            · exact Or.inl h'
            · exact Or.inr ⟨k0, v0, List.mem_cons_self .., h'⟩
          · exact Or.inr ⟨k1, v, List.mem_cons_of_mem _ hv, hk⟩

theorem processFold_filter (raw : List (String × Option PVal))
    (acc : List (String × PVal)) :
    raw.foldl processStep acc
      = (raw.filter (fun p => p.2.isSome)).foldl processStep acc := by
  induction raw generalizing acc with
  | nil => rfl
  | cons p t ih =>
      rcases p with ⟨k0, v?⟩
      cases v? with
      | none => simpa [processStep] using ih acc
      | some v0 => simpa [processStep] using ih (processEntry acc k0 v0)

theorem processFold_ne_nil (raw : List (String × Option PVal))
    (acc : List (String × PVal)) (h : acc ≠ []) :
    raw.foldl processStep acc ≠ [] := by
  induction raw generalizing acc with
  | nil => exact h
  | cons p t ih =>
      rcases p with ⟨k0, v?⟩
      cases v? with
      | none => exact ih acc h
      | some v0 => exact ih _ (processEntry_ne_nil acc k0 v0)

theorem processFold_all_none (raw : List (String × Option PVal))
    (acc : List (String × PVal)) (h : ∀ p ∈ raw, p.2 = none) :
    raw.foldl processStep acc = acc := by
  induction raw generalizing acc with
  | nil => rfl
  | cons p t ih =>
      have hp := h p (List.mem_cons_self ..)
      rcases p with ⟨k0, v?⟩
      cases v? with
      | none =>
          exact ih acc (fun q hq => h q (List.mem_cons_of_mem _ hq))
      | some v0 => simp at hp

theorem processFold_ne_nil_of_mem (raw : List (String × Option PVal)) :
    ∀ acc : List (String × PVal), (∃ p ∈ raw, p.2 ≠ none) →
      raw.foldl processStep acc ≠ [] := by
  induction raw with
  | nil => intro acc h; simp at h
  | cons q t ih =>
      intro acc h
      rcases h with ⟨p, hp, hv⟩
      rcases q with ⟨k1, w?⟩
      rcases List.mem_cons.1 hp with rfl | hpt
      · cases hw : w? with
        | none => rw [hw] at hv; exact absurd rfl hv
        | some w0 =>
            simp only [List.foldl_cons, processStep]
            exact processFold_ne_nil t _ (processEntry_ne_nil acc k1 w0)
      · cases w? with
        | none =>
            simp only [List.foldl_cons, processStep]
            exact ih acc ⟨p, hpt, hv⟩
        | some w0 =>
            simp only [List.foldl_cons, processStep]
            exact processFold_ne_nil t _ (processEntry_ne_nil acc k1 w0)

theorem process_ne_nil_of_some (raw : List (String × Option PVal))
    (h : ∃ p ∈ raw, p.2 ≠ none) : process_ups_data raw ≠ [] :=
  processFold_ne_nil_of_mem raw [] h

theorem processed_keys_not_base (raw : List (String × Option PVal))
    (h1 : ∀ p ∈ raw, p.1 ≠ "timestamp" ∧ p.1 ≠ "ip" ∧ p.1 ≠ "error")
    (h2 : ∀ v, ("status", some v) ∈ raw → ∃ n, v = PVal.pInt n)
    (k : String) (hk : k ∈ alKeys (process_ups_data raw)) :
    k ∉ statusBaseKeys := by
  rcases processFold_keys raw [] k hk with h | h | ⟨v, hv, hc⟩
  · simp [alKeys] at h
  · simp only [artifactKeys, List.mem_cons, List.not_mem_nil, or_false] at h
    rcases h with rfl | rfl | rfl | rfl <;> decide
  · have hk1 := h1 (k, some v) hv
    have hks : k ≠ "status" := by
      intro hs
      exact hc hs (h2 v (hs ▸ hv))
    simp only [statusBaseKeys, List.mem_cons, List.not_mem_nil, or_false,
      not_or]
    exact ⟨hk1.1, hk1.2.1, hks, hk1.2.2⟩

theorem alKeys_map_some (l : List (String × PVal)) :
    alKeys (l.map (fun p => (p.1, some p.2))) = alKeys l := by
  simp [alKeys, List.map_map]

theorem alKeys_baseRecord (ts ip : String) :
    alKeys (baseRecord ts ip) = statusBaseKeys := rfl

/-- Claim C1 (amended):  For every record produced by `get_ups_status`:
`status = 'online'` iff the error field is `None` iff the raw sample was
non-empty; a decoded field is present iff some raw field survived the
absent-OID sentinel (so an online record can carry *zero* decoded fields
when every polled OID was absent); and the offline branch sets a non-empty
error and no decoded fields.  Hypotheses: the raw sample is keyed by
telemetry names (never the reserved `timestamp`/`ip`/`error` keys) and the
battery-status OID, if returned, was parsed as an integer code (a
non-integer value there would overwrite the top-level `status` field). -/
theorem get_ups_status_invariant (ts ip : String)
    (raw : List (String × Option PVal))
    (h1 : ∀ p ∈ raw, p.1 ≠ "timestamp" ∧ p.1 ≠ "ip" ∧ p.1 ≠ "error")
    (h2 : ∀ v, ("status", some v) ∈ raw → ∃ n, v = PVal.pInt n) :
    ((alGet (get_ups_status ts ip raw) "status"
        = some (some (.pStr "online"))) ↔ raw ≠ []) ∧
    ((alGet (get_ups_status ts ip raw) "error" = some none) ↔ raw ≠ []) ∧
    (decodedPresent (get_ups_status ts ip raw) = true
        ↔ ∃ p ∈ raw, p.2 ≠ none) ∧
    (raw = [] →
      alGet (get_ups_status ts ip raw) "error"
          = some (some (.pStr "No SNMP response")) ∧
      decodedPresent (get_ups_status ts ip raw) = false) := by
  by_cases hraw : raw = []
  · subst hraw
    refine ⟨?_, ?_, ?_, ?_⟩
    · simp [get_ups_status, alGet]
    · simp [get_ups_status, alGet]
    · simp [get_ups_status, decodedPresent, statusBaseKeys]
    · intro _
      constructor
      · simp [get_ups_status, alGet]
      · simp [get_ups_status, decodedPresent, statusBaseKeys]
  · have hrec : get_ups_status ts ip raw
        = dictUpdate (baseRecord ts ip)
            ((process_ups_data raw).map (fun p => (p.1, some p.2))) := by
      simp [get_ups_status, hraw]
    have hnb : ∀ k, k ∈ alKeys
        ((process_ups_data raw).map (fun p => (p.1, some p.2))) →
        k ∉ statusBaseKeys := by
      intro k hk
      rw [alKeys_map_some] at hk
      exact processed_keys_not_base raw h1 h2 k hk
    refine ⟨?_, ?_, ?_, fun h => absurd h hraw⟩
    · rw [hrec, alGet_dictUpdate_not_mem _ _ _
        (fun hm => hnb _ hm (by decide))]
      simp [baseRecord, alGet, hraw]
    · rw [hrec, alGet_dictUpdate_not_mem _ _ _
        (fun hm => hnb _ hm (by decide))]
      simp [baseRecord, alGet, hraw]
    · rw [hrec]
      constructor
      · intro hd
        rcases List.any_eq_true.1 hd with ⟨p, hp, hb⟩
        have hpnm : p.1 ∉ statusBaseKeys := by
          simpa using hb
        have hpk : p.1 ∈ alKeys (dictUpdate (baseRecord ts ip)
            ((process_ups_data raw).map (fun q => (q.1, some q.2)))) :=
          (mem_alKeys_iff _ _).2 ⟨p, hp, rfl⟩
        rcases (mem_alKeys_dictUpdate _ _ _).1 hpk with hpk | hpk
        · rw [alKeys_baseRecord] at hpk
          exact absurd hpk hpnm
        · rw [alKeys_map_some] at hpk
          by_contra hnone
          push_neg at hnone
          have : process_ups_data raw = [] :=
            processFold_all_none raw [] hnone
          rw [this] at hpk
          simp [alKeys] at hpk
      · intro hsome
        have hne := process_ne_nil_of_some raw hsome
        obtain ⟨q, t, hq⟩ := List.exists_cons_of_ne_nil hne
        have hqk : q.1 ∈ alKeys (process_ups_data raw) := by
          rw [hq]; simp [alKeys]
        have hqnb := processed_keys_not_base raw h1 h2 q.1 hqk
        have hqrec : q.1 ∈ alKeys (dictUpdate (baseRecord ts ip)
            ((process_ups_data raw).map (fun p => (p.1, some p.2)))) :=
          (mem_alKeys_dictUpdate _ _ _).2
            (Or.inr ((alKeys_map_some _).symm ▸ hqk))
        rcases (mem_alKeys_iff _ _).1 hqrec with ⟨p, hp, hpk⟩
        refine List.any_eq_true.2 ⟨p, hp, ?_⟩
        rw [hpk]
        simpa using hqnb

/-- Claim C1 (counterexample):  A poll in which the only returned field is
the absent-OID sentinel yields a record with `status = 'online'` and no
error, yet *zero* decoded telemetry fields — refuting the claimed
equivalence between `status = online` and the presence of a decoded
field. -/
theorem get_ups_status_online_without_fields :
    alGet (get_ups_status "2026-01-01T00:00:00" "10.0.0.1"
        [("voltage", none)]) "status" = some (some (.pStr "online")) ∧
    alGet (get_ups_status "2026-01-01T00:00:00" "10.0.0.1"
        [("voltage", none)]) "error" = some none ∧
    decodedPresent (get_ups_status "2026-01-01T00:00:00" "10.0.0.1"
        [("voltage", none)]) = false := by
  decide

/-- Witness for `get_ups_status_invariant` at a concrete one-field poll. -/
theorem get_ups_status_invariant_witness :
    ((alGet (get_ups_status "t" "ip" [("voltage", some (.pFloat 247))])
        "status" = some (some (.pStr "online")))
      ↔ [("voltage", some (PVal.pFloat 247))] ≠ []) ∧
    ((alGet (get_ups_status "t" "ip" [("voltage", some (.pFloat 247))])
        "error" = some none)
      ↔ [("voltage", some (PVal.pFloat 247))] ≠ []) ∧
    (decodedPresent (get_ups_status "t" "ip"
        [("voltage", some (.pFloat 247))]) = true
      ↔ ∃ p ∈ [("voltage", some (PVal.pFloat 247))], p.2 ≠ none) ∧
    ([("voltage", some (PVal.pFloat 247))]
        = ([] : List (String × Option PVal)) →
      alGet (get_ups_status "t" "ip" [("voltage", some (.pFloat 247))])
          "error" = some (some (.pStr "No SNMP response")) ∧
      decodedPresent (get_ups_status "t" "ip"
          [("voltage", some (.pFloat 247))]) = false) :=
  get_ups_status_invariant "t" "ip" [("voltage", some (.pFloat 247))]
    (by decide)
    (by
      intro v hv
      simp only [List.mem_singleton, Prod.mk.injEq] at hv
      exact absurd hv.1 (by decide))

end UpsSnmp

namespace UpsSnmp

/-! ## Decoder claims: scaling, status codes, absent OIDs, transport
failure -/

/-- Claim C2 (code-bug evidence):  Through the real pipeline
(`get_multiple_oids` then `_process_ups_data`), the battery-voltage key
`voltage` is scaled (`247 → 24.7`) but the essential-group key
`input_frequency` — documented as 0.1 Hz units in `ups_oids.py` and scaled
by 10 in `main_ups.py` — passes through *unscaled*: raw `600` decodes to
`600.0`, not the claimed `60.0`, because `_process_ups_data` only matches
the exact keys `voltage`/`current`/`frequency`.  (`output_load` raw `42`
is passed through unscaled, as a string, since no `_parse_value` name
convention matches it.) -/
theorem input_frequency_not_scaled :
    process_ups_data (get_multiple_oids
        ["input_frequency", "voltage", "output_load"]
        (.ok none false ["600", "247", "42"]))
      = [("input_frequency", .pFloat 600), ("voltage", .pFloat (247 / 10)),
         ("output_load", .pStr "42")] ∧
    ("input_frequency", UPS_MIB_BASE ++ ".1.3.3.1.2" ++ ".1")
        ∈ ESSENTIAL_OIDS ∧
    (600 : ℚ) / 10 = 60 ∧ (600 : ℚ) ≠ 60 := by
  refine ⟨?_, by decide, by norm_num, by norm_num⟩
  simp +decide [get_multiple_oids, process_ups_data, processStep,
    processEntry, alSet, parse_value, pyFloat?, splitOnDot, digitsVal]

/-- Claim C4:  A battery-status code arriving as an integer decodes to the
`BATTERY_STATUS` text label under `battery_status`, with the numeric code
retained under the distinct key `battery_status_code`; a code absent from
the table decodes to the synthesized label `unknown (<code>)` instead of
failing. -/
theorem battery_status_decode (n : Int) :
    process_ups_data [("status", some (.pInt n))]
      = [("battery_status", .pStr (batteryStatusText n)),
         ("battery_status_code", .pInt n)] ∧
    (∀ s, (n, s) ∈ BATTERY_STATUS → batteryStatusText n = s) ∧
    (n ∉ BATTERY_STATUS.map Prod.fst →
      batteryStatusText n = "unknown (" ++ toString n ++ ")") := by
  refine ⟨?_, ?_, ?_⟩
  · simp [process_ups_data, processStep, processEntry, alSet]
  · intro s hs
    simp only [BATTERY_STATUS, List.mem_cons, List.not_mem_nil, or_false,
      Prod.mk.injEq] at hs
    rcases hs with ⟨rfl, rfl⟩ | ⟨rfl, rfl⟩ | ⟨rfl, rfl⟩ | ⟨rfl, rfl⟩ <;>
      decide
  · intro h
    simp only [BATTERY_STATUS, List.map_cons, List.map_nil, List.mem_cons,
      List.not_mem_nil, or_false, not_or] at h
    obtain ⟨h1, h2, h3, h4⟩ := h
    have e1 : (n == 1) = false := beq_eq_false_iff_ne.2 h1
    have e2 : (n == 2) = false := beq_eq_false_iff_ne.2 h2
    have e3 : (n == 3) = false := beq_eq_false_iff_ne.2 h3
    have e4 : (n == 4) = false := beq_eq_false_iff_ne.2 h4
    simp [batteryStatusText, BATTERY_STATUS, List.lookup, e1, e2, e3, e4]

/-- Witness for `battery_status_decode` at codes `3` (mapped) and `9`
(unmapped). -/
theorem battery_status_decode_witness :
    batteryStatusText 3 = "batteryLow" ∧
    process_ups_data [("status", some (.pInt 9))]
      = [("battery_status", .pStr (batteryStatusText 9)),
         ("battery_status_code", .pInt 9)] ∧
    batteryStatusText 9 = "unknown (9)" := by
  refine ⟨(battery_status_decode 3).2.1 "batteryLow" (by decide),
    (battery_status_decode 9).1, ?_⟩
  have h := (battery_status_decode 9).2.2 (by decide)
  simpa using h

/-- Claim C5:  The two absent-OID sentinels parse to `None`, and
`_process_ups_data` drops `None` fields entirely: the record equals the
record of the successful fields alone, and the absent field's key never
appears (no null placeholder) — including the essential-group field
`output_source`, whose name doubles as a decoder-introduced key (with
unique raw keys nothing re-introduces it).  Hypotheses: raw keys are
unique (they come from a Python dict), and the absent field's name is not
`battery_status`/`battery_status_code` while an integer `status` succeeds,
nor `output_source_code` while an integer `output_source` succeeds — the
exact circumstances in which the decoder synthesizes those keys from a
*different* raw field (no OID table of `ups_oids.py` names a field by any
of those three derived names, and whenever the circumstances do hold the
key genuinely appears in the record, so the hypotheses exclude no case in
which the claimed omission is true). -/
theorem absent_field_dropped (raw : List (String × Option PVal))
    (k : String) (hn : (alKeys raw).Nodup)
    (hmem : (k, (none : Option PVal)) ∈ raw)
    (hb : k = "battery_status" ∨ k = "battery_status_code" →
      ¬ ∃ n, ("status", some (PVal.pInt n)) ∈ raw)
    (ho : k = "output_source_code" →
      ¬ ∃ n, ("output_source", some (PVal.pInt n)) ∈ raw) :
    parse_value k NO_SUCH_OBJECT = none ∧
    parse_value k NO_SUCH_INSTANCE = none ∧
    process_ups_data raw
        = process_ups_data (raw.filter (fun p => p.2.isSome)) ∧
    k ∉ alKeys (process_ups_data raw) := by
  have clash : ∀ v : PVal, (k, some v) ∈ raw → False := by
    intro v hv
    have heq : (k, some v) = (k, (none : Option PVal)) :=
      List.inj_on_of_nodup_map hn hv hmem rfl
    simp at heq
  refine ⟨by simp [parse_value], by simp [parse_value], ?_, ?_⟩
  · unfold process_ups_data
    exact processFold_filter raw []
  · intro hk
    rcases processFold_keys_origin raw [] k hk with h | ⟨k0, v, hv, hkem⟩
    · simp [alKeys] at h
    · by_cases h0 : k0 = "status"
      · subst h0
        cases v with
        | pInt n =>
            simp [emitKeys] at hkem
            exact hb hkem ⟨n, hv⟩
        | pFloat q =>
            simp [emitKeys] at hkem
            subst hkem
            exact clash _ hv
        | pStr s =>
            simp [emitKeys] at hkem
            subst hkem
            exact clash _ hv
      · by_cases h1 : k0 = "output_source"
        · subst h1
          cases v with
          | pInt n =>
              simp [emitKeys] at hkem
              rcases hkem with rfl | rfl
              · exact clash _ hv
              · exact ho rfl ⟨n, hv⟩
          | pFloat q =>
              simp [emitKeys] at hkem
              subst hkem
              exact clash _ hv
          | pStr s =>
              simp [emitKeys] at hkem
              subst hkem
              exact clash _ hv
        · simp [emitKeys, h0, h1] at hkem
          subst hkem
          exact clash _ hv

/-- Witness for `absent_field_dropped`: the absent field is
`output_source` itself, while an integer `status` and a plain field
succeed. -/
theorem absent_field_dropped_witness :
    parse_value "output_source" NO_SUCH_OBJECT = none ∧
    parse_value "output_source" NO_SUCH_INSTANCE = none ∧
    process_ups_data
        [("status", some (.pInt 2)), ("output_source", none),
         ("input_voltage", some (.pStr "230"))]
      = process_ups_data
          ([("status", some (.pInt 2)), ("output_source", none),
            ("input_voltage", some (.pStr "230"))].filter
            (fun p => p.2.isSome)) ∧
    "output_source" ∉ alKeys (process_ups_data
        [("status", some (.pInt 2)), ("output_source", none),
         ("input_voltage", some (.pStr "230"))]) :=
  absent_field_dropped
    [("status", some (.pInt 2)), ("output_source", none),
     ("input_voltage", some (.pStr "230"))]
    "output_source" (by decide) (by decide)
    (fun h => absurd h (by decide)) (fun h => absurd h (by decide))

/-- Claim C8:  A transport-level failure (exception after all retries, or an
error indication) or a protocol-level error status makes
`get_multiple_oids` return the empty result mapping: every requested OID
is absent.  (The embedding is a total function — the `try/except` around
the transport call means no input propagates an exception to the
caller.) -/
theorem get_multiple_oids_failure (names : List String)
    (out : SnmpOutcome)
    (h : (∃ e, out = SnmpOutcome.exc e)
      ∨ (∃ e b vs, out = SnmpOutcome.ok (some e) b vs)
      ∨ (∃ vs, out = SnmpOutcome.ok none true vs)) :
    get_multiple_oids names out = [] := by
  rcases h with ⟨e, rfl⟩ | ⟨e, b, vs, rfl⟩ | ⟨vs, rfl⟩ <;>
    simp [get_multiple_oids]

/-- Witness for `get_multiple_oids_failure`: the three failure shapes. -/
theorem get_multiple_oids_failure_witness :
    get_multiple_oids ["status"] (.exc "timeout") = [] ∧
    get_multiple_oids ["status"] (.ok (some "unreachable") false ["3"])
      = [] ∧
    get_multiple_oids ["status"] (.ok none true ["3"]) = [] :=
  ⟨get_multiple_oids_failure _ _ (Or.inl ⟨_, rfl⟩),
   get_multiple_oids_failure _ _ (Or.inr (Or.inl ⟨_, _, _, rfl⟩)),
   get_multiple_oids_failure _ _ (Or.inr (Or.inr ⟨_, rfl⟩))⟩

end UpsSnmp

namespace UpsSnmp

/-! ## Log-rotation claims -/

/-- Claim C3 (counterexample):  With a 1 MB ceiling, once the dated base
file `ups_20260101.csv` exceeds the ceiling (2 000 000 bytes), the next
append goes to the timestamp-suffixed `ups_20260101_120000.csv`; but an
append one second later goes to the *different* file
`ups_20260101_120001.csv`, even though the first rotated file holds only
50 bytes — refuting "every subsequent append in the same period targets
that same new file until it too exceeds the ceiling". -/
theorem rotation_not_sticky :
    (get_log_filename ⟨true, 1, "csv"⟩ "ups" "20260101" "20260101_120000"
        (fun n => if n = "ups_20260101.csv" then some 2000000 else none)
      = "ups_20260101_120000.csv") ∧
    (get_log_filename ⟨true, 1, "csv"⟩ "ups" "20260101" "20260101_120001"
        (fun n => if n = "ups_20260101.csv" then some 2000000
          else if n = "ups_20260101_120000.csv" then some 50 else none)
      = "ups_20260101_120001.csv") ∧
    ("ups_20260101_120001.csv" ≠ "ups_20260101_120000.csv") ∧
    (50 ≤ 1 * 1024 * 1024) := by
  refine ⟨by decide, by decide, by decide, by decide⟩

/-- Claim C3 (amended):  Once the dated base file exceeds the configured
byte ceiling, *every* call of `_get_log_filename` resolves to the file
named by that call's own timestamp — the rotated file's size is never
consulted, so appends in the same second share one file but appends in a
later second start yet another file, and the over-size check keeps firing
on the dated base file. -/
theorem rotation_uses_call_timestamp (cfg : LoggerCfg)
    (device dateStr nowStr : String) (size : String → Option Nat) (s : Nat)
    (hrot : cfg.rotation = true)
    (hsz : size (device ++ "_" ++ dateStr ++ "." ++ cfg.logFormat) = some s)
    (hover : s > cfg.maxSizeMB * 1024 * 1024) :
    get_log_filename cfg device dateStr nowStr size
        = device ++ "_" ++ nowStr ++ "." ++ cfg.logFormat ∧
    (nowStr ≠ dateStr →
      device ++ "_" ++ nowStr ++ "." ++ cfg.logFormat
        ≠ device ++ "_" ++ dateStr ++ "." ++ cfg.logFormat) := by
  constructor
  · simp [get_log_filename, hrot, hsz, hover]
  · intro hne heq
    apply hne
    have hd := congrArg String.data heq
    simp only [String.data_append, List.append_assoc] at hd
    have h1 := List.append_cancel_left hd
    have h2 := List.append_cancel_left h1
    exact String.ext (List.append_cancel_right h2)

/-- Witness for `rotation_uses_call_timestamp` at the concrete
over-ceiling state of `rotation_not_sticky`. -/
theorem rotation_uses_call_timestamp_witness :
    get_log_filename ⟨true, 1, "csv"⟩ "ups" "20260101" "20260101_120000"
        (fun n => if n = "ups" ++ "_" ++ "20260101" ++ "." ++ "csv"
          then some 2000000 else none)
      = "ups" ++ "_" ++ "20260101_120000" ++ "." ++ "csv" ∧
    ("20260101_120000" ≠ "20260101" →
      "ups" ++ "_" ++ "20260101_120000" ++ "." ++ "csv"
        ≠ "ups" ++ "_" ++ "20260101" ++ "." ++ "csv") :=
  rotation_uses_call_timestamp ⟨true, 1, "csv"⟩ "ups" "20260101"
    "20260101_120000"
    (fun n => if n = "ups" ++ "_" ++ "20260101" ++ "." ++ "csv"
      then some 2000000 else none)
    2000000 rfl (by decide) (by decide)

end UpsSnmp

namespace UpsSnmp

/-! ## File-name and file-selection lemmas -/

theorem strToList_append (a b : String) :
    (a ++ b).toList = a.toList ++ b.toList :=
  String.data_append a b

theorem strAppend_assoc (a b c : String) :
    (a ++ b) ++ c = a ++ (b ++ c) :=
  String.ext (by simp [String.data_append])

theorem strAppend_empty (a : String) : a ++ "" = a :=
  String.ext (by simp [String.data_append])

theorem charsPrefix_append (p q : List Char) :
    charsPrefix p (p ++ q) = true := by
  induction p with
  | nil => rfl
  | cons a as ih => simp [charsPrefix, ih]

theorem globMatch_shape (device mid ext : String) :
    globMatch device ext (device ++ mid ++ "." ++ ext) = true := by
  unfold globMatch charsSuffix
  have hl : (device ++ mid ++ "." ++ ext).toList
      = device.toList ++ (mid.toList ++ (".".toList ++ ext.toList)) := by
    simp [strToList_append, List.append_assoc]
  rw [hl]
  have h1 : charsPrefix device.toList
      (device.toList ++ (mid.toList ++ (".".toList ++ ext.toList))) = true :=
    charsPrefix_append ..
  have hdrop : (device.toList ++
        (mid.toList ++ (".".toList ++ ext.toList))).drop
        device.toList.length
      = mid.toList ++ (".".toList ++ ext.toList) :=
    List.drop_left ..
  rw [h1, hdrop]
  have h2 : charsPrefix (("." ++ ext).toList).reverse
      ((mid.toList ++ (".".toList ++ ext.toList)).reverse) = true := by
    have hr : (mid.toList ++ (".".toList ++ ext.toList)).reverse
        = (("." ++ ext).toList).reverse ++ mid.toList.reverse := by
      simp [strToList_append, List.reverse_append]
    rw [hr]
    exact charsPrefix_append ..
  rw [h2]
  rfl

theorem globMatch_get_log_filename (cfg : LoggerCfg)
    (device dateStr nowStr : String) (size : String → Option Nat) :
    globMatch device cfg.logFormat
      (get_log_filename cfg device dateStr nowStr size) = true := by
  have hshape : ∀ mid : String, globMatch device cfg.logFormat
      (device ++ mid ++ "." ++ cfg.logFormat) = true := fun mid =>
    globMatch_shape device mid cfg.logFormat
  have hbase : globMatch device cfg.logFormat
      (device ++ "." ++ cfg.logFormat) = true := by
    have := hshape ""
    rwa [strAppend_empty] at this
  have hnow : globMatch device cfg.logFormat
      (device ++ "_" ++ nowStr ++ "." ++ cfg.logFormat) = true := by
    rw [strAppend_assoc device "_" nowStr]
    exact hshape _
  have hdate : globMatch device cfg.logFormat
      (device ++ "_" ++ dateStr ++ "." ++ cfg.logFormat) = true := by
    rw [strAppend_assoc device "_" dateStr]
    exact hshape _
  unfold get_log_filename
  cases hc : cfg.rotation with
  | true =>
      simp only [hc, if_true]
      split_ifs <;> assumption
  | false =>
      simp only [hc, Bool.false_eq_true, if_false]
      split_ifs <;> assumption

theorem pickFold_max {α : Type} (mt : α → Nat) (t : List α) (b : α)
    (h : ∀ g ∈ t, mt g ≤ mt b) : t.foldl (pickStep mt) (some b) = some b := by
  induction t with
  | nil => rfl
  | cons a s ih =>
      have ha := h a (List.mem_cons_self ..)
      simp only [List.foldl_cons, pickStep]
      rw [if_neg (by omega)]
      exact ih (fun g hg => h g (List.mem_cons_of_mem _ hg))

theorem pickFold_wins {α : Type} (mt : α → Nat) (t : List α) (b f : α)
    (hf : f ∈ t) (hb : mt b < mt f)
    (hmax : ∀ g ∈ t, g ≠ f → mt g < mt f) :
    t.foldl (pickStep mt) (some b) = some f := by
  induction t generalizing b with
  | nil => cases hf
  | cons a s ih =>
      by_cases ha : a = f
      · subst ha
        simp only [List.foldl_cons, pickStep]
        rw [if_pos (by omega)]
        refine pickFold_max mt s a ?_
        intro g hg
        by_cases hgf : g = a
        · exact hgf ▸ Nat.le_refl _
        · exact Nat.le_of_lt (hmax g (List.mem_cons_of_mem _ hg) hgf)
      · have hft : f ∈ s := by
          rcases List.mem_cons.1 hf with rfl | hft
          · exact absurd rfl ha
          · exact hft
        have halt : mt a < mt f := hmax a (List.mem_cons_self ..) ha
        simp only [List.foldl_cons, pickStep]
        split_ifs with hcmp
        · exact ih a hft halt (fun g hg hgf =>
            hmax g (List.mem_cons_of_mem _ hg) hgf)
        · exact ih b hft hb (fun g hg hgf =>
            hmax g (List.mem_cons_of_mem _ hg) hgf)

theorem pickLatest_spec {α : Type} (mt : α → Nat) (l : List α) (f : α)
    (hf : f ∈ l) (hmax : ∀ g ∈ l, g ≠ f → mt g < mt f) :
    pickLatest mt l = some f := by
  cases l with
  | nil => cases hf
  | cons a t =>
      show (t.foldl (pickStep mt) (pickStep mt none a)) = some f
      by_cases ha : a = f
      · subst ha
        refine pickFold_max mt t a ?_
        intro g hg
        by_cases hgf : g = a
        · exact hgf ▸ Nat.le_refl _
        · exact Nat.le_of_lt (hmax g (List.mem_cons_of_mem _ hg) hgf)
      · have hft : f ∈ t := by
          rcases List.mem_cons.1 hf with rfl | hft
          · exact absurd rfl ha
          · exact hft
        exact pickFold_wins mt t a f hft
          (hmax a (List.mem_cons_self ..) ha)
          (fun g hg hgf => hmax g (List.mem_cons_of_mem _ hg) hgf)

theorem pyTail_append_one {α : Type} (l : List α) (x : α) :
    pyTail 1 (l ++ [x]) = [x] := by
  unfold pyTail
  rw [if_neg (by omega), List.length_append]
  simp only [List.length_cons, List.length_nil]
  have : l.length + (0 + 1) - 1 = l.length := by omega
  rw [this]
  exact List.drop_left ..

theorem pyTail_suffix {α : Type} (n : Nat) (l : List α) :
    pyTail n l <:+ l := by
  unfold pyTail
  split
  · exact List.suffix_refl l
  · exact List.drop_suffix ..

theorem pyTail_length_le {α : Type} (n : Nat) (l : List α) (h : 0 < n) :
    (pyTail n l).length ≤ n := by
  unfold pyTail
  rw [if_neg (by omega), List.length_drop]
  omega

theorem readCsvRow_keys_cells (data : Record) :
    readCsvRow (data.map Prod.fst) (data.map (fun p => csvCell p.2))
      = data.map (fun p => (p.1, some (csvCell p.2))) := by
  induction data with
  | nil => rfl
  | cons p t ih => simp [readCsvRow, ih]

end UpsSnmp

namespace UpsSnmp

/-! ## Round-trip and retrieval lemmas for the Log Writer -/

theorem get_latest_csv_pick (device : String) (n : Nat)
    (fs : List CsvFile) (f : CsvFile) (hf : f ∈ fs)
    (hg : globMatch device "csv" f.name = true)
    (hmax : ∀ g ∈ fs, globMatch device "csv" g.name = true → g ≠ f →
      g.mtime < f.mtime) :
    get_latest_data_csv device n fs
      = (pyTail n f.rows).map (readCsvRow f.header) := by
  unfold get_latest_data_csv pickLatestCsv
  rw [pickLatest_spec CsvFile.mtime _ f (List.mem_filter.2 ⟨hf, hg⟩)
    (fun g hgm => hmax g (List.mem_filter.1 hgm).1 (List.mem_filter.1 hgm).2)]

theorem get_latest_json_pick (device : String) (n : Nat)
    (jfs : List JsonFile) (f : JsonFile) (hf : f ∈ jfs)
    (hg : globMatch device "json" f.name = true)
    (hmax : ∀ g ∈ jfs, globMatch device "json" g.name = true → g ≠ f →
      g.mtime < f.mtime) :
    get_latest_data_json device n jfs = pyTail n f.recs := by
  unfold get_latest_data_json pickLatestJson
  rw [pickLatest_spec JsonFile.mtime _ f (List.mem_filter.2 ⟨hf, hg⟩)
    (fun g hgm => hmax g (List.mem_filter.1 hgm).1 (List.mem_filter.1 hgm).2)]

theorem log_json_new (cfg : LoggerCfg) (device dateStr nowStr : String)
    (mt : Nat) (data : Record) (jfs : List JsonFile)
    (hfind : findJson jfs (get_log_filename cfg device dateStr nowStr
      (fun n => (findJson jfs n).map jsonFileSize)) = none) :
    log_json cfg device dateStr nowStr mt data jfs
      = jfs ++ [⟨get_log_filename cfg device dateStr nowStr
          (fun n => (findJson jfs n).map jsonFileSize), mt, [data]⟩] := by
  unfold log_json
  rw [hfind]

theorem log_json_existing (cfg : LoggerCfg)
    (device dateStr nowStr : String) (mt : Nat) (data : Record)
    (jfs : List JsonFile) (g0 : JsonFile)
    (hfind : findJson jfs (get_log_filename cfg device dateStr nowStr
      (fun n => (findJson jfs n).map jsonFileSize)) = some g0) :
    log_json cfg device dateStr nowStr mt data jfs
      = jfs.map (fun f =>
          if f.name = get_log_filename cfg device dateStr nowStr
              (fun n => (findJson jfs n).map jsonFileSize) then
            ⟨f.name, mt, f.recs ++ [data]⟩
          else f) := by
  unfold log_json
  rw [hfind]

theorem log_csv_new (cfg : LoggerCfg) (device dateStr nowStr : String)
    (mt : Nat) (data : Record) (fs : List CsvFile)
    (hfind : findCsv fs (get_log_filename cfg device dateStr nowStr
      (fun n => (findCsv fs n).map csvFileSize)) = none) :
    log_csv cfg device dateStr nowStr mt data fs
      = fs ++ [⟨get_log_filename cfg device dateStr nowStr
          (fun n => (findCsv fs n).map csvFileSize), mt,
          data.map Prod.fst, [data.map (fun p => csvCell p.2)]⟩] := by
  unfold log_csv
  rw [hfind]

theorem log_csv_existing (cfg : LoggerCfg)
    (device dateStr nowStr : String) (mt : Nat) (data : Record)
    (fs : List CsvFile) (g0 : CsvFile)
    (hfind : findCsv fs (get_log_filename cfg device dateStr nowStr
      (fun n => (findCsv fs n).map csvFileSize)) = some g0) :
    log_csv cfg device dateStr nowStr mt data fs
      = fs.map (fun f =>
          if f.name = get_log_filename cfg device dateStr nowStr
              (fun n => (findCsv fs n).map csvFileSize) then
            ⟨f.name, mt, f.header,
              f.rows ++ [data.map (fun p => csvCell p.2)]⟩
          else f) := by
  unfold log_csv
  rw [hfind]

theorem log_json_roundtrip (cfg : LoggerCfg)
    (device dateStr nowStr : String) (mt : Nat) (data : Record)
    (jfs : List JsonFile) (hfmt : cfg.logFormat = "json")
    (hnd : (jfs.map JsonFile.name).Nodup)
    (hm : ∀ g ∈ jfs, globMatch device "json" g.name = true →
      g.mtime < mt) :
    get_latest_data_json device 1
      (log_json cfg device dateStr nowStr mt data jfs) = [data] := by
  have hglob : globMatch device "json"
      (get_log_filename cfg device dateStr nowStr
        (fun n => (findJson jfs n).map jsonFileSize)) = true := by
    have h := globMatch_get_log_filename cfg device dateStr nowStr
      (fun n => (findJson jfs n).map jsonFileSize)
    rwa [hfmt] at h
  cases hfind : findJson jfs
      (get_log_filename cfg device dateStr nowStr
        (fun n => (findJson jfs n).map jsonFileSize)) with
  | none =>
      rw [log_json_new cfg device dateStr nowStr mt data jfs hfind]
      rw [get_latest_json_pick device 1 _
        ⟨get_log_filename cfg device dateStr nowStr
          (fun n => (findJson jfs n).map jsonFileSize), mt, [data]⟩
        (List.mem_append.2 (Or.inr (List.mem_singleton.2 rfl))) hglob ?_]
      · simp [pyTail]
      · intro g hgm hgg hgne
        rcases List.mem_append.1 hgm with hgj | hgs
        · exact hm g hgj hgg
        · simp only [List.mem_singleton] at hgs
          exact absurd hgs hgne
  | some g0 =>
      have hg0mem : g0 ∈ jfs := List.mem_of_find?_eq_some hfind
      have hg0name : g0.name
          = get_log_filename cfg device dateStr nowStr
              (fun n => (findJson jfs n).map jsonFileSize) := by
        have h := List.find?_some hfind
        simpa using h
      rw [log_json_existing cfg device dateStr nowStr mt data jfs g0 hfind]
      rw [get_latest_json_pick device 1 _
        ⟨g0.name, mt, g0.recs ++ [data]⟩ ?hmem ?hg ?hmax]
      case hmem =>
        refine List.mem_map.2 ⟨g0, hg0mem, ?_⟩
        rw [if_pos hg0name]
      case hg => rw [hg0name]; exact hglob
      case hmax =>
        intro g hgm hgg hgne
        rcases List.mem_map.1 hgm with ⟨x, hx, hfx⟩
        by_cases hxn : x.name = get_log_filename cfg device dateStr nowStr
            (fun n => (findJson jfs n).map jsonFileSize)
        · have hx0 : x = g0 :=
            List.inj_on_of_nodup_map hnd hx hg0mem
              (by rw [hxn, hg0name])
          subst hx0
          rw [if_pos hxn] at hfx
          refine absurd ?_ hgne
          rw [← hfx]
        · rw [if_neg hxn] at hfx
          subst hfx
          exact hm x hx hgg
      · exact pyTail_append_one g0.recs data

theorem log_csv_roundtrip (cfg : LoggerCfg)
    (device dateStr nowStr : String) (mt : Nat) (data : Record)
    (fs : List CsvFile) (hfmt : cfg.logFormat = "csv")
    (hnd : (fs.map CsvFile.name).Nodup)
    (hm : ∀ g ∈ fs, globMatch device "csv" g.name = true → g.mtime < mt)
    (halign : ∀ g, findCsv fs
        (get_log_filename cfg device dateStr nowStr
          (fun n => (findCsv fs n).map csvFileSize)) = some g →
      g.header = data.map Prod.fst) :
    get_latest_data_csv device 1
        (log_csv cfg device dateStr nowStr mt data fs)
      = [data.map (fun p => (p.1, some (csvCell p.2)))] := by
  have hglob : globMatch device "csv"
      (get_log_filename cfg device dateStr nowStr
        (fun n => (findCsv fs n).map csvFileSize)) = true := by
    have h := globMatch_get_log_filename cfg device dateStr nowStr
      (fun n => (findCsv fs n).map csvFileSize)
    rwa [hfmt] at h
  cases hfind : findCsv fs
      (get_log_filename cfg device dateStr nowStr
        (fun n => (findCsv fs n).map csvFileSize)) with
  | none =>
      rw [log_csv_new cfg device dateStr nowStr mt data fs hfind]
      rw [get_latest_csv_pick device 1 _
        ⟨get_log_filename cfg device dateStr nowStr
          (fun n => (findCsv fs n).map csvFileSize), mt,
          data.map Prod.fst, [data.map (fun p => csvCell p.2)]⟩
        (List.mem_append.2 (Or.inr (List.mem_singleton.2 rfl))) hglob ?_]
      · simp only [pyTail, if_neg (by omega : ¬(1 = 0))]
        simp only [List.length_cons, List.length_nil, Nat.sub_self,
          List.drop_zero, List.map_cons, List.map_nil]
        rw [readCsvRow_keys_cells]
      · intro g hgm hgg hgne
        rcases List.mem_append.1 hgm with hgj | hgs
        · exact hm g hgj hgg
        · simp only [List.mem_singleton] at hgs
          exact absurd hgs hgne
  | some g0 =>
      have hg0mem : g0 ∈ fs := List.mem_of_find?_eq_some hfind
      have hg0name : g0.name
          = get_log_filename cfg device dateStr nowStr
              (fun n => (findCsv fs n).map csvFileSize) := by
        have h := List.find?_some hfind
        simpa using h
      have hg0hdr : g0.header = data.map Prod.fst := halign g0 hfind
      rw [log_csv_existing cfg device dateStr nowStr mt data fs g0 hfind]
      rw [get_latest_csv_pick device 1 _
        ⟨g0.name, mt, g0.header,
          g0.rows ++ [data.map (fun p => csvCell p.2)]⟩ ?hmem ?hg ?hmax]
      case hmem =>
        refine List.mem_map.2 ⟨g0, hg0mem, ?_⟩
        rw [if_pos hg0name]
      case hg => rw [hg0name]; exact hglob
      case hmax =>
        intro g hgm hgg hgne
        rcases List.mem_map.1 hgm with ⟨x, hx, hfx⟩
        by_cases hxn : x.name = get_log_filename cfg device dateStr nowStr
            (fun n => (findCsv fs n).map csvFileSize)
        · have hx0 : x = g0 :=
            List.inj_on_of_nodup_map hnd hx hg0mem
              (by rw [hxn, hg0name])
          subst hx0
          rw [if_pos hxn] at hfx
          exact absurd (by rw [← hfx]) hgne
        · rw [if_neg hxn] at hfx
          subst hfx
          exact hm x hx hgg
      · rw [pyTail_append_one g0.rows]
        simp only [List.map_cons, List.map_nil]
        rw [hg0hdr, readCsvRow_keys_cells]

end UpsSnmp

namespace UpsSnmp

/-- Claim C6 (amended):  Appending a record through the Log Writer and
immediately retrieving `latestRecords(device, 1)` returns exactly that
record — verbatim in JSON mode, coerced to serialization strings in CSV
mode (provided, for CSV, that an already-existing target file's header
matches the record's field set).  In general, retrieval reads only the
most recently modified matching file and, for count `n ≥ 1`, returns at
most `n` records, a suffix of the file's rows (chronological order).  For
`n = 0` the code returns *all* records (Python `lst[-0:]`), which is what
the original claim's "at most n" fails on. -/
theorem log_writer_roundtrip_and_latest (device dateStr nowStr : String)
    (mt : Nat) (data : Record) :
    (∀ (cfg : LoggerCfg) (jfs : List JsonFile),
      cfg.logFormat = "json" → (jfs.map JsonFile.name).Nodup →
      (∀ g ∈ jfs, globMatch device "json" g.name = true → g.mtime < mt) →
      get_latest_data_json device 1
        (log_json cfg device dateStr nowStr mt data jfs) = [data]) ∧
    (∀ (cfg : LoggerCfg) (fs : List CsvFile),
      cfg.logFormat = "csv" → (fs.map CsvFile.name).Nodup →
      (∀ g ∈ fs, globMatch device "csv" g.name = true → g.mtime < mt) →
      (∀ g, findCsv fs (get_log_filename cfg device dateStr nowStr
          (fun n => (findCsv fs n).map csvFileSize)) = some g →
        g.header = data.map Prod.fst) →
      get_latest_data_csv device 1
          (log_csv cfg device dateStr nowStr mt data fs)
        = [data.map (fun p => (p.1, some (csvCell p.2)))]) ∧
    (∀ (fs : List CsvFile) (n : Nat) (f : CsvFile),
      f ∈ fs → globMatch device "csv" f.name = true →
      (∀ g ∈ fs, globMatch device "csv" g.name = true → g ≠ f →
        g.mtime < f.mtime) →
      get_latest_data_csv device n fs
          = (pyTail n f.rows).map (readCsvRow f.header)
        ∧ (0 < n → (get_latest_data_csv device n fs).length ≤ n)
        ∧ pyTail n f.rows <:+ f.rows) ∧
    (∀ (jfs : List JsonFile) (n : Nat) (f : JsonFile),
      f ∈ jfs → globMatch device "json" f.name = true →
      (∀ g ∈ jfs, globMatch device "json" g.name = true → g ≠ f →
        g.mtime < f.mtime) →
      get_latest_data_json device n jfs = pyTail n f.recs
        ∧ (0 < n → (get_latest_data_json device n jfs).length ≤ n)
        ∧ pyTail n f.recs <:+ f.recs) := by
  refine ⟨?_, ?_, ?_, ?_⟩
  · intro cfg jfs h1 h2 h3
    exact log_json_roundtrip cfg device dateStr nowStr mt data jfs h1 h2 h3
  · intro cfg fs h1 h2 h3 h4
    exact log_csv_roundtrip cfg device dateStr nowStr mt data fs h1 h2 h3 h4
  · intro fs n f hf hg hmax
    have he := get_latest_csv_pick device n fs f hf hg hmax
    refine ⟨he, ?_, pyTail_suffix ..⟩
    intro hn
    rw [he, List.length_map]
    exact pyTail_length_le n f.rows hn
  · intro jfs n f hf hg hmax
    have he := get_latest_json_pick device n jfs f hf hg hmax
    refine ⟨he, ?_, pyTail_suffix ..⟩
    intro hn
    rw [he]
    exact pyTail_length_le n f.recs hn

/-- Claim C6 (counterexample):  For count `0`, `get_latest_data` returns
*all* records of the latest file (Python `lst[-0:]` is the whole list),
not "at most 0": after two appends the call with count `0` yields both
records. -/
theorem get_latest_zero_returns_all :
    get_latest_data_json "u" 0
        (log_json ⟨true, 100, "json"⟩ "u" "d" "t2" 2
          [("status", some (.pStr "b"))]
          (log_json ⟨true, 100, "json"⟩ "u" "d" "t1" 1
            [("status", some (.pStr "a"))] []))
      = [[("status", some (.pStr "a"))], [("status", some (.pStr "b"))]]
    ∧ ¬ ((2 : Nat) ≤ 0) := by
  refine ⟨by decide, by decide⟩

/-- Witness for `log_writer_roundtrip_and_latest` at concrete states. -/
theorem log_writer_roundtrip_and_latest_witness :
    (get_latest_data_json "u" 1
        (log_json ⟨true, 100, "json"⟩ "u" "d" "t" 5
          [("status", some (.pStr "ok"))] [])
      = [[("status", some (.pStr "ok"))]]) ∧
    (get_latest_data_csv "u" 1
        (log_csv ⟨true, 100, "csv"⟩ "u" "d" "t" 5
          [("status", some (.pStr "ok"))] [])
      = [[("status", some "ok")]]) ∧
    (get_latest_data_csv "u" 1 [⟨"u_x.csv", 1, ["a"], [["1"], ["2"]]⟩]
        = (pyTail 1 [["1"], ["2"]]).map (readCsvRow ["a"])
      ∧ (0 < 1 → (get_latest_data_csv "u" 1
          [⟨"u_x.csv", 1, ["a"], [["1"], ["2"]]⟩]).length ≤ 1)
      ∧ pyTail 1 [["1"], ["2"]] <:+ [["1"], ["2"]]) := by
  have h := log_writer_roundtrip_and_latest "u" "d" "t" 5
    [("status", some (.pStr "ok"))]
  refine ⟨h.1 ⟨true, 100, "json"⟩ [] rfl (by decide) (by decide), ?_, ?_⟩
  · have h2 := h.2.1 ⟨true, 100, "csv"⟩ [] rfl (by decide) (by decide)
      (by intro g hg; exact Option.noConfusion hg)
    simpa using h2
  · exact h.2.2.1 [⟨"u_x.csv", 1, ["a"], [["1"], ["2"]]⟩] 1
      ⟨"u_x.csv", 1, ["a"], [["1"], ["2"]]⟩ (by decide) (by decide)
      (by decide)

/-- Claim C7 (amended):  The CSV writer emits the header exactly once, when
the file is created, deriving it from the first record's field set; an
append to an existing file never touches any header.  But nothing enforces
that a later record supplies the same field set: the row is written in the
record's own key order regardless, so rows align with the header only
when the caller supplies the same field set (in which case reading the
row back under the header reproduces the record). -/
theorem csv_header_written_once (cfg : LoggerCfg)
    (device dateStr nowStr : String) (mt : Nat) (data : Record)
    (fs : List CsvFile) (fname : String)
    (hfn : fname = get_log_filename cfg device dateStr nowStr
      (fun n => (findCsv fs n).map csvFileSize)) :
    (findCsv fs fname = none →
      log_csv cfg device dateStr nowStr mt data fs
        = fs ++ [⟨fname, mt, data.map Prod.fst,
            [data.map (fun p => csvCell p.2)]⟩]) ∧
    (∀ g, findCsv fs fname = some g →
      (log_csv cfg device dateStr nowStr mt data fs).map
          (fun f => (f.name, f.header))
        = fs.map (fun f => (f.name, f.header))) ∧
    readCsvRow (data.map Prod.fst) (data.map (fun p => csvCell p.2))
      = data.map (fun p => (p.1, some (csvCell p.2))) := by
  refine ⟨?_, ?_, readCsvRow_keys_cells data⟩
  · intro hfind
    rw [hfn] at hfind
    rw [log_csv_new cfg device dateStr nowStr mt data fs hfind, hfn]
  · intro g hfind
    rw [hfn] at hfind
    rw [log_csv_existing cfg device dateStr nowStr mt data fs g hfind]
    rw [List.map_map]
    apply List.map_congr_left
    intro x _
    by_cases hc : x.name = get_log_filename cfg device dateStr nowStr
        (fun n => (findCsv fs n).map csvFileSize)
    · simp [Function.comp, hc]
    · simp [Function.comp, hc]

/-- Claim C7 (counterexample):  Appending a record with field set `["b"]` to
a file created with header `["a"]` succeeds and writes the value under the
wrong column: the file keeps header `["a"]` and gains the row `["2"]`, so
reading it back yields `a = "2"` — the writer does not enforce that
subsequent rows supply the header's field set. -/
theorem csv_field_set_not_enforced :
    log_csv ⟨true, 100, "csv"⟩ "u" "d" "t2" 2 [("b", some (.pInt 2))]
        (log_csv ⟨true, 100, "csv"⟩ "u" "d" "t1" 1
          [("a", some (.pInt 1))] [])
      = [⟨"u_d.csv", 2, ["a"], [["1"], ["2"]]⟩] ∧
    (["b"] ≠ ["a"]) ∧
    readCsvRow ["a"] ["2"] = [("a", some "2")] := by
  refine ⟨by decide, by decide, by decide⟩

/-- Witness for `csv_header_written_once` on an empty directory. -/
theorem csv_header_written_once_witness :
    (findCsv [] "u_d.csv" = none →
      log_csv ⟨true, 100, "csv"⟩ "u" "d" "t" 1 [("a", some (.pInt 1))] []
        = [] ++ [⟨"u_d.csv", 1, [("a", some (PVal.pInt 1))].map Prod.fst,
            [[("a", some (PVal.pInt 1))].map (fun p => csvCell p.2)]⟩]) ∧
    (∀ g, findCsv [] "u_d.csv" = some g →
      (log_csv ⟨true, 100, "csv"⟩ "u" "d" "t" 1
          [("a", some (.pInt 1))] []).map (fun f => (f.name, f.header))
        = ([] : List CsvFile).map (fun f => (f.name, f.header))) ∧
    readCsvRow ([("a", some (PVal.pInt 1))].map Prod.fst)
        ([("a", some (PVal.pInt 1))].map (fun p => csvCell p.2))
      = [("a", some (PVal.pInt 1))].map
          (fun p => (p.1, some (csvCell p.2))) :=
  csv_header_written_once ⟨true, 100, "csv"⟩ "u" "d" "t" 1
    [("a", some (.pInt 1))] [] "u_d.csv" (by decide)

/-- Claim C10:  File selection uses the glob `<device>*.<ext>`, so a device
name that is a proper prefix of another collides: a record logged for
`UPS_10` is returned by both `get_latest_data` and `export_data` invoked
for the distinct device `UPS_1`. -/
theorem glob_prefix_collision :
    get_latest_data_json "UPS_1" 1
        (log_json ⟨true, 100, "json"⟩ "UPS_10" "20260101" "t" 1
          [("owner", some (.pStr "UPS_10"))] [])
      = [[("owner", some (.pStr "UPS_10"))]] ∧
    export_data_json "UPS_1" none none ".json"
        (log_json ⟨true, 100, "json"⟩ "UPS_10" "20260101" "t" 1
          [("owner", some (.pStr "UPS_10"))] [])
      = some (.toJson [[("owner", some (.pStr "UPS_10"))]]) ∧
    ("UPS_1" ≠ "UPS_10") := by
  refine ⟨by decide, by decide, by decide⟩

end UpsSnmp

namespace UpsSnmp

/-! ## Export lemmas -/

theorem collectRows_fold {α : Type}
    (keep : List (String × α) → Option Bool)
    (rows acc' : List (List (String × α)))
    (h : ∀ r ∈ rows, keep r ≠ none) :
    rows.foldl (fun a r => a.bind (fun l =>
        (keep r).map (fun b => if b then l ++ [r] else l))) (some acc')
      = some (acc' ++ rows.filter (fun r => keep r == some true)) := by
  induction rows generalizing acc' with
  | nil => simp
  | cons r t ih =>
      have hr := h r (List.mem_cons_self ..)
      cases hk : keep r with
      | none => exact absurd hk hr
      | some b =>
          simp only [List.foldl_cons, Option.bind_eq_bind, Option.some_bind,
            hk, Option.map_some']
          rw [ih _ (fun q hq => h q (List.mem_cons_of_mem _ hq))]
          cases b with
          | true =>
              simp only [if_true, List.filter_cons, hk]
              simp [List.append_assoc]
          | false =>
              simp only [if_false, List.filter_cons, hk]
              simp

theorem collectRows_eq {α : Type}
    (keep : List (String × α) → Option Bool)
    (rows : List (List (String × α)))
    (h : ∀ r ∈ rows, keep r ≠ none) :
    collectRows keep rows
      = some (rows.filter (fun r => keep r == some true)) := by
  unfold collectRows
  simpa using collectRows_fold keep rows [] h

theorem collectFiles_fold {β γ : Type} (g : γ → Option (List β))
    (gv : γ → List β) (files : List γ) (acc' : List β)
    (h : ∀ f ∈ files, g f = some (gv f)) :
    files.foldl (fun a f => a.bind (fun l => (g f).map (fun m => l ++ m)))
        (some acc')
      = some (acc' ++ files.flatMap gv) := by
  induction files generalizing acc' with
  | nil => simp
  | cons f t ih =>
      have hf := h f (List.mem_cons_self ..)
      simp only [List.foldl_cons, Option.bind_eq_bind, Option.some_bind,
        hf, Option.map_some']
      rw [ih _ (fun q hq => h q (List.mem_cons_of_mem _ hq))]
      simp [List.flatMap_cons, List.append_assoc]

theorem flatMap_filter {β γ : Type} (files : List γ) (rows : γ → List β)
    (p : β → Bool) :
    files.flatMap (fun f => (rows f).filter p)
      = (files.flatMap rows).filter p := by
  induction files with
  | nil => rfl
  | cons f t ih => simp [List.flatMap_cons, List.filter_append, ih]

theorem collect_csv_eq (device : String) (s? e? : Option String)
    (fs : List CsvFile)
    (h : ∀ r ∈ (csvMatchingSorted device fs).flatMap csvReadRecords,
      keepRow s? e? (alGet r "timestamp") ≠ none) :
    collect_csv device s? e? fs
      = some (((csvMatchingSorted device fs).flatMap csvReadRecords).filter
          (fun r => keepRow s? e? (alGet r "timestamp") == some true)) := by
  unfold collect_csv
  rw [collectFiles_fold
    (fun f => collectRows (fun r => keepRow s? e? (alGet r "timestamp"))
      (csvReadRecords f))
    (fun f => (csvReadRecords f).filter
      (fun r => keepRow s? e? (alGet r "timestamp") == some true))
    (csvMatchingSorted device fs) []
    (fun f hf => collectRows_eq _ _
      (fun r hr => h r (List.mem_flatMap.2 ⟨f, hf, hr⟩)))]
  rw [flatMap_filter]
  simp

theorem collect_json_eq (device : String) (s? e? : Option String)
    (jfs : List JsonFile)
    (h : ∀ r ∈ (jsonMatchingSorted device jfs).flatMap JsonFile.recs,
      keepRowJson s? e? (alGet r "timestamp") ≠ none) :
    collect_json device s? e? jfs
      = some (((jsonMatchingSorted device jfs).flatMap JsonFile.recs).filter
          (fun r => keepRowJson s? e? (alGet r "timestamp") == some true))
    := by
  unfold collect_json
  rw [collectFiles_fold
    (fun f => collectRows
      (fun r => keepRowJson s? e? (alGet r "timestamp")) f.recs)
    (fun f => f.recs.filter
      (fun r => keepRowJson s? e? (alGet r "timestamp") == some true))
    (jsonMatchingSorted device jfs) []
    (fun f hf => collectRows_eq _ _
      (fun r hr => h r (List.mem_flatMap.2 ⟨f, hf, hr⟩)))]
  rw [flatMap_filter]
  simp

theorem keepVal_iff (s? e? : Option String) (ts : String) :
    keepVal s? e? ts = true
      ↔ (∀ a ∈ s?, a ≤ ts) ∧ (∀ b ∈ e?, ts ≤ b) := by
  cases s? <;> cases e? <;>
    simp [keepVal, not_lt, Option.mem_def]

theorem keepRow_iff (s? e? : Option String) (tsv : Option (Option String)) :
    keepRow s? e? tsv = some true ↔
      (tsv = none ∨ ∃ ts, tsv = some (some ts) ∧ tsOk ts = true ∧
        (∀ a ∈ s?, a ≤ ts) ∧ (∀ b ∈ e?, ts ≤ b)) := by
  cases tsv with
  | none => simp [keepRow]
  | some v =>
      cases v with
      | none => simp [keepRow]
      | some ts =>
          simp only [keepRow]
          by_cases hok : tsOk ts = true
          · rw [if_pos hok]
            simp only [Option.some.injEq, reduceCtorEq, false_or]
            rw [keepVal_iff]
            constructor
            · intro h
              exact ⟨ts, rfl, hok, h.1, h.2⟩
            · rintro ⟨ts', hts', _, hs, he⟩
              obtain rfl : ts' = ts := by
                first
                  | exact hts'.symm
                  | (simp only [Option.some.injEq, PVal.pStr.injEq] at hts'
                     exact hts'.symm)
              exact ⟨hs, he⟩
          · rw [if_neg hok]
            simp only [reduceCtorEq, false_or, false_iff]
            rintro ⟨ts', hts', hok', _, _⟩
            obtain rfl : ts' = ts := by
                first
                  | exact hts'.symm
                  | (simp only [Option.some.injEq, PVal.pStr.injEq] at hts'
                     exact hts'.symm)
            exact hok hok'

theorem keepRowJson_iff (s? e? : Option String)
    (tsv : Option (Option PVal)) :
    keepRowJson s? e? tsv = some true ↔
      (tsv = none ∨ ∃ ts, tsv = some (some (.pStr ts)) ∧ tsOk ts = true ∧
        (∀ a ∈ s?, a ≤ ts) ∧ (∀ b ∈ e?, ts ≤ b)) := by
  cases tsv with
  | none => simp [keepRowJson]
  | some v =>
      cases v with
      | none => simp [keepRowJson]
      | some w =>
          cases w with
          | pInt n => simp [keepRowJson]
          | pFloat q => simp [keepRowJson]
          | pStr ts =>
              simp only [keepRowJson]
              by_cases hok : tsOk ts = true
              · rw [if_pos hok]
                simp only [Option.some.injEq, reduceCtorEq, false_or]
                rw [keepVal_iff]
                constructor
                · intro h
                  exact ⟨ts, rfl, hok, h.1, h.2⟩
                · rintro ⟨ts', hts', _, hs, he⟩
                  obtain rfl : ts' = ts := by
                    first
                      | exact hts'.symm
                      | (simp only [Option.some.injEq, PVal.pStr.injEq]
                           at hts'
                         exact hts'.symm)
                  exact ⟨hs, he⟩
              · rw [if_neg hok]
                simp only [reduceCtorEq, false_or, false_iff]
                rintro ⟨ts', hts', hok', _, _⟩
                obtain rfl : ts' = ts := by
                  first
                    | exact hts'.symm
                    | (simp only [Option.some.injEq, PVal.pStr.injEq]
                         at hts'
                       exact hts'.symm)
                exact hok hok'

theorem writeRows_eq {β : Type} (rowFn : β → Option (List String))
    (gv : β → List String) (l : List β)
    (h : ∀ r ∈ l, rowFn r = some (gv r)) :
    writeRows rowFn l = some (l.map gv) := by
  induction l with
  | nil => rfl
  | cons r t ih =>
      simp only [writeRows, h r (List.mem_cons_self ..),
        Option.bind_eq_bind, Option.some_bind]
      rw [ih (fun q hq => h q (List.mem_cons_of_mem _ hq))]
      rfl

theorem dictWriterRow_some (fieldnames : List String)
    (r : List (String × Option String))
    (h : ∀ p ∈ r, p.1 ∈ fieldnames) :
    dictWriterRow fieldnames r
      = some (fieldnames.map (fun k =>
          match alGet r k with
          | some (some s) => s
          | _ => "")) := by
  unfold dictWriterRow
  rw [if_pos]
  exact List.all_eq_true.2 (fun p hp => by simpa using h p hp)

end UpsSnmp

namespace UpsSnmp

theorem export_csv_out_json (device : String) (s? e? : Option String)
    (fs : List CsvFile) (all : List (List (String × Option String)))
    (hc : collect_csv device s? e? fs = some all) :
    export_data_csv device s? e? ".json" fs = some (CsvOut.toJson all) := by
  unfold export_data_csv
  rw [hc]
  rfl

theorem export_csv_out_empty (device : String) (s? e? : Option String)
    (fs : List CsvFile) (hc : collect_csv device s? e? fs = some []) :
    export_data_csv device s? e? ".csv" fs = some CsvOut.toCsvEmpty := by
  unfold export_data_csv
  rw [hc]
  rfl

theorem export_csv_out_rows (device : String) (s? e? : Option String)
    (fs : List CsvFile) (r0 : List (String × Option String))
    (rest : List (List (String × Option String)))
    (hc : collect_csv device s? e? fs = some (r0 :: rest)) :
    export_data_csv device s? e? ".csv" fs
      = (writeRows (dictWriterRow (r0.map Prod.fst)) (r0 :: rest)).map
          (fun rows => CsvOut.toCsv (r0.map Prod.fst) rows) := by
  unfold export_data_csv
  rw [hc]
  rfl

theorem export_json_out_json (device : String) (s? e? : Option String)
    (jfs : List JsonFile) (all : List Record)
    (hc : collect_json device s? e? jfs = some all) :
    export_data_json device s? e? ".json" jfs
      = some (JsonOut.toJson all) := by
  unfold export_data_json
  rw [hc]
  rfl

/-- Claim C9 (amended):  `export_data` scans exactly the glob-matching files
in file-name order (a sorted permutation of the matching set) and keeps
exactly those records that either *lack* a `timestamp` field (always
included — the divergence from the original claim) or whose timestamp lies
inclusively within the optional bounds; the gathered records are then
written in the format implied by the destination suffix (`.json` dumps
them; `.csv` writes a header from the first record's field set and one
row per record), independent of the logger's configured serialization,
which only governs the *reading* side. -/
theorem export_scan_filter_format (device : String)
    (s? e? : Option String) :
    (∀ tsv : Option (Option String), keepRow s? e? tsv = some true ↔
      (tsv = none ∨ ∃ ts, tsv = some (some ts) ∧ tsOk ts = true ∧
        (∀ a ∈ s?, a ≤ ts) ∧ (∀ b ∈ e?, ts ≤ b))) ∧
    (∀ fs : List CsvFile,
      (∀ r ∈ (csvMatchingSorted device fs).flatMap csvReadRecords,
        keepRow s? e? (alGet r "timestamp") ≠ none) →
      collect_csv device s? e? fs
        = some (((csvMatchingSorted device fs).flatMap
            csvReadRecords).filter
            (fun r => keepRow s? e? (alGet r "timestamp") == some true))) ∧
    (∀ fs : List CsvFile,
      List.Pairwise (fun a b : CsvFile => a.name ≤ b.name)
          (csvMatchingSorted device fs)
        ∧ (csvMatchingSorted device fs).Perm
            (fs.filter (fun f => globMatch device "csv" f.name))) ∧
    (∀ (fs : List CsvFile) all, collect_csv device s? e? fs = some all →
      export_data_csv device s? e? ".json" fs
        = some (CsvOut.toJson all)) ∧
    (∀ fs : List CsvFile, collect_csv device s? e? fs = some [] →
      export_data_csv device s? e? ".csv" fs = some CsvOut.toCsvEmpty) ∧
    (∀ (fs : List CsvFile) r0 rest,
      collect_csv device s? e? fs = some (r0 :: rest) →
      (∀ r ∈ r0 :: rest, ∀ p ∈ r, p.1 ∈ r0.map Prod.fst) →
      export_data_csv device s? e? ".csv" fs
        = some (CsvOut.toCsv (r0.map Prod.fst)
            ((r0 :: rest).map (fun r => (r0.map Prod.fst).map (fun k =>
              match alGet r k with
              | some (some s) => s
              | _ => ""))))) ∧
    (∀ tsv : Option (Option PVal), keepRowJson s? e? tsv = some true ↔
      (tsv = none ∨ ∃ ts, tsv = some (some (.pStr ts)) ∧ tsOk ts = true ∧
        (∀ a ∈ s?, a ≤ ts) ∧ (∀ b ∈ e?, ts ≤ b))) ∧
    (∀ jfs : List JsonFile,
      (∀ r ∈ (jsonMatchingSorted device jfs).flatMap JsonFile.recs,
        keepRowJson s? e? (alGet r "timestamp") ≠ none) →
      collect_json device s? e? jfs
        = some (((jsonMatchingSorted device jfs).flatMap
            JsonFile.recs).filter
            (fun r => keepRowJson s? e? (alGet r "timestamp")
              == some true))) ∧
    (∀ (jfs : List JsonFile) all, collect_json device s? e? jfs = some all →
      export_data_json device s? e? ".json" jfs
        = some (JsonOut.toJson all)) := by
  refine ⟨keepRow_iff s? e?, collect_csv_eq device s? e?, ?_,
    export_csv_out_json device s? e?, export_csv_out_empty device s? e?,
    ?_, keepRowJson_iff s? e?, collect_json_eq device s? e?,
    export_json_out_json device s? e?⟩
  · intro fs
    haveI hTot : IsTotal CsvFile (fun a b => a.name ≤ b.name) :=
      ⟨fun a b => le_total a.name b.name⟩
    haveI hTrans : IsTrans CsvFile (fun a b => a.name ≤ b.name) :=
      ⟨fun a b c h1 h2 => le_trans h1 h2⟩
    exact ⟨List.sorted_insertionSort _ _, List.perm_insertionSort _ _⟩
  · intro fs r0 rest hc halign
    rw [export_csv_out_rows device s? e? fs r0 rest hc]
    rw [writeRows_eq (dictWriterRow (r0.map Prod.fst))
      (fun r => (r0.map Prod.fst).map (fun k =>
        match alGet r k with
        | some (some s) => s
        | _ => ""))
      (r0 :: rest)
      (fun r hr => dictWriterRow_some (r0.map Prod.fst) r (halign r hr))]
    rfl

/-- Claim C9 (counterexample):  With both bounds supplied
(`2026-01-01 .. 2026-01-02`), a record carrying *no* `timestamp` field is
nevertheless included in the export — refuting "includes exactly those
records whose timestamp field lies inclusively within the given
bounds". -/
theorem export_includes_untimestamped :
    export_data_csv "u" (some "2026-01-01T00:00:00")
        (some "2026-01-02T00:00:00") ".csv"
        [⟨"u_d.csv", 1, ["x"], [["1"]]⟩]
      = some (.toCsv ["x"] [["1"]]) ∧
    alGet (readCsvRow ["x"] ["1"]) "timestamp" = none := by
  refine ⟨by decide, by decide⟩

/-- Witness for `export_scan_filter_format`: one file, one timestamped
record, no bounds, exported to the `.json` suffix. -/
theorem export_scan_filter_format_witness :
    (keepRow none none (some (some "2026-01-02T00:00:00")) = some true ↔
      ((some (some "2026-01-02T00:00:00") : Option (Option String)) = none
        ∨ ∃ ts, (some (some "2026-01-02T00:00:00")
              : Option (Option String)) = some (some ts)
            ∧ tsOk ts = true
            ∧ (∀ a ∈ (none : Option String), a ≤ ts)
            ∧ (∀ b ∈ (none : Option String), ts ≤ b))) ∧
    (collect_csv "u" none none
        [⟨"u_d.csv", 1, ["timestamp", "v"],
          [["2026-01-02T00:00:00", "5"]]⟩]
      = some (((csvMatchingSorted "u"
          [⟨"u_d.csv", 1, ["timestamp", "v"],
            [["2026-01-02T00:00:00", "5"]]⟩]).flatMap
          csvReadRecords).filter
          (fun r => keepRow none none
            (alGet r "timestamp") == some true))) ∧
    (export_data_csv "u" none none ".json"
        [⟨"u_d.csv", 1, ["timestamp", "v"],
          [["2026-01-02T00:00:00", "5"]]⟩]
      = some (CsvOut.toJson [[("timestamp",
          some "2026-01-02T00:00:00"), ("v", some "5")]])) := by
  have h := export_scan_filter_format "u" none none
  refine ⟨h.1 _, h.2.1 _ (by decide), ?_⟩
  exact h.2.2.2.1 _ _ (by decide)

end UpsSnmp
